import Mathlib

/-!
# send-trigger.js : a verification development

Shallow embedding of `src/k8s/tekton/send-trigger.js`, the script that builds a
synthetic GitHub "release" webhook, signs it with HMAC-SHA1 and POSTs it.

JavaScript strings are modelled by Lean `String`s (well-formed Unicode text),
JavaScript numbers that occur in the script (status codes, ports, lengths) by `Nat`.
-/

namespace SendTrigger

/-! ## JavaScript values -/

/-- The JavaScript values the script's settings can take. -/
inductive JSVal where
  | undefined
  | bool (b : Bool)
  | num (n : Nat)
  | str (s : String)
  deriving DecidableEq, Repr

/-- JavaScript truthiness (`ToBoolean`). -/
def JSVal.truthy : JSVal → Bool
  | .undefined => false
  | .bool b => b
  | .num n => n != 0
  | .str s => s != ""

/-- The JavaScript operator `a || b`: `a` when it is truthy, otherwise `b`. -/
def jsOr (a b : JSVal) : JSVal := if a.truthy then a else b

/-! ## String primitives used by the script -/

/-- `s.startsWith(p)`. -/
def startsWith (s p : String) : Bool := p.data.isPrefixOf s.data

/-- `s.endsWith(p)`. -/
def endsWith (s p : String) : Bool := p.data.isSuffixOf s.data

/-- Splitting a character list at every occurrence of `sep`. -/
def splitChars (sep : Char) : List Char → List (List Char)
  | [] => [[]]
  | c :: cs =>
    if c = sep then [] :: splitChars sep cs
    else
      match splitChars sep cs with
      | [] => [[c]]
      | p :: ps => (c :: p) :: ps

/-- `s.split(sep)` for a one-character separator: every piece, in order. -/
def split (s : String) (sep : Char) : List String :=
  (splitChars sep s.data).map String.mk

/-- The call `k.replace(re, '')` of line 14, where `re` matches two dashes at the start of
the string: a leading `--` is removed, anything else is left alone. -/
def stripDashes (k : String) : String :=
  if startsWith k "--" then ⟨k.data.drop 2⟩ else k

/-! ## The `args` object -/

/-- A plain JavaScript object with string keys: its own properties. -/
abbrev Obj := List (String × JSVal)

/-- Property read `o[k]` (for keys that `Object.prototype` does not define):
the own property, or `undefined`. -/
def objGet (o : Obj) (k : String) : JSVal :=
  match o.lookup k with
  | some v => v
  | none => .undefined

/-- Property write `o[k] = v` for a primitive `v`.  Writing a primitive to
`__proto__` goes to the inherited setter, which ignores it. -/
def objSet (o : Obj) (k : String) (v : JSVal) : Obj :=
  if k = "__proto__" then o else (k, v) :: o.filter (fun p => p.1 != k)

/-- One iteration of the loop in `parseArgs` (lines 11-15). -/
def parseArg (args : Obj) (a : String) : Obj :=
  if startsWith a "--" then
    match split a '=' with
    | [] => args
    | [k] => objSet args (stripDashes k) (.bool true)
    | k :: v :: _ => objSet args (stripDashes k) (.str v)
  else args

/-- `parseArgs()` (lines 8-18) on `process.argv = argv`: the loop starts at index 2. -/
def parseArgs (argv : List String) : Obj :=
  (argv.drop 2).foldl parseArg []

/-! ## Configuration (lines 21-23) -/

/-- The process environment: a variable is set to a string, or unset. -/
abbrev Env := String → Option String

/-- `process.env[name]`. -/
def envGet (env : Env) (name : String) : JSVal :=
  match env name with
  | some s => .str s
  | none => .undefined

/-- Line 22: `args.secret || process.env.GITHUB_SECRET || 'mysecret'`. -/
def secret (argv : List String) (env : Env) : JSVal :=
  jsOr (jsOr (objGet (parseArgs argv) "secret") (envGet env "GITHUB_SECRET")) (.str "mysecret")

/-- Line 23, the parenthesised part:
`args.url || process.env.EL_URL || 'http://127.0.0.1:8080'`. -/
def urlChosen (argv : List String) (env : Env) : JSVal :=
  jsOr (jsOr (objGet (parseArgs argv) "url") (envGet env "EL_URL")) (.str "http://127.0.0.1:8080")

/-! ## UTF-8 -/

/-- The UTF-8 encoding of one code point, as bytes. -/
def utf8EncodeChar (c : Char) : List Nat :=
  let n := c.toNat
  if n < 0x80 then [n]
  else if n < 0x800 then [0xC0 + n / 64, 0x80 + n % 64]
  else if n < 0x10000 then [0xE0 + n / 4096, 0x80 + n / 64 % 64, 0x80 + n % 64]
  else [0xF0 + n / 262144, 0x80 + n / 4096 % 64, 0x80 + n / 64 % 64, 0x80 + n % 64]

/-- The bytes a string is turned into when it is hashed or written to a socket
(the default encoding, UTF-8). -/
def utf8Bytes (s : String) : List Nat := s.data.flatMap utf8EncodeChar

/-- Number of UTF-8 bytes of one code point. -/
def utf8Size (c : Char) : Nat :=
  let n := c.toNat
  if n < 0x80 then 1 else if n < 0x800 then 2 else if n < 0x10000 then 3 else 4

/-- `Buffer.byteLength(s)`: the number of bytes of the UTF-8 encoding, counted without
building it. -/
def byteLength (s : String) : Nat := (s.data.map utf8Size).sum

/-! ## SHA-1 and HMAC (the primitive behind `crypto.createHmac('sha1', key)`) -/

/-- Rotate a 32-bit word left by `n` bits. -/
def rotl32 (n x : Nat) : Nat := ((x <<< n) ||| (x >>> (32 - n))) % 2 ^ 32

/-- Big-endian bytes of a 32-bit word. -/
def be32 (x : Nat) : List Nat := [x / 2 ^ 24 % 256, x / 2 ^ 16 % 256, x / 2 ^ 8 % 256, x % 256]

/-- Big-endian bytes of a 64-bit length field. -/
def be64 (x : Nat) : List Nat := be32 (x / 2 ^ 32 % 2 ^ 32) ++ be32 (x % 2 ^ 32)

/-- The word read big-endian from four bytes. -/
def wordOfBytes (bs : List Nat) : Nat := bs.foldl (fun acc b => acc * 256 + b) 0

/-- SHA-1 padding: a `0x80` byte, zeros up to 56 modulo 64, the bit length on 8 bytes. -/
def sha1Pad (m : List Nat) : List Nat :=
  m ++ [0x80] ++ List.replicate ((119 - m.length % 64) % 64) 0 ++ be64 (8 * m.length)

/-- The five chaining words of SHA-1. -/
structure Sha1State where
  a : Nat
  b : Nat
  c : Nat
  d : Nat
  e : Nat
  deriving DecidableEq, Repr

/-- The initial chaining value. -/
def sha1Init : Sha1State := ⟨0x67452301, 0xEFCDAB89, 0x98BADCFE, 0x10325476, 0xC3D2E1F0⟩

/-- The message schedule: 16 words extended to 80. -/
def sha1Schedule (w16 : List Nat) : List Nat :=
  (List.range 64).foldl (fun w _ =>
    let t := w.length
    w ++ [rotl32 1 (w.getD (t - 3) 0 ^^^ w.getD (t - 8) 0 ^^^ w.getD (t - 14) 0 ^^^ w.getD (t - 16) 0)])
    w16

/-- The round function and constant of round `t`. -/
def sha1F (t b c d : Nat) : Nat × Nat :=
  if t < 20 then ((b &&& c) ||| ((b ^^^ (2 ^ 32 - 1)) &&& d), 0x5A827999)
  else if t < 40 then (b ^^^ c ^^^ d, 0x6ED9EBA1)
  else if t < 60 then ((b &&& c) ||| (b &&& d) ||| (c &&& d), 0x8F1BBCDC)
  else (b ^^^ c ^^^ d, 0xCA62C1D6)

/-- One of the 80 rounds. -/
def sha1Round (s : Sha1State) (tw : Nat × Nat) : Sha1State :=
  let fk := sha1F tw.1 s.b s.c s.d
  ⟨(rotl32 5 s.a + fk.1 + s.e + fk.2 + tw.2) % 2 ^ 32, s.a, rotl32 30 s.b, s.c, s.d⟩

/-- The compression function on one 64-byte block. -/
def sha1Block (h : Sha1State) (block : List Nat) : Sha1State :=
  let w16 := (List.range 16).map (fun i => wordOfBytes ((block.drop (4 * i)).take 4))
  let w := sha1Schedule w16
  let s := ((List.range 80).zip w).foldl sha1Round h
  ⟨(h.a + s.a) % 2 ^ 32, (h.b + s.b) % 2 ^ 32, (h.c + s.c) % 2 ^ 32, (h.d + s.d) % 2 ^ 32,
    (h.e + s.e) % 2 ^ 32⟩

/-- SHA-1 of a byte string: 20 bytes. -/
def sha1 (m : List Nat) : List Nat :=
  let p := sha1Pad m
  let h := (List.range (p.length / 64)).foldl
    (fun h i => sha1Block h ((p.drop (64 * i)).take 64)) sha1Init
  be32 h.a ++ be32 h.b ++ be32 h.c ++ be32 h.d ++ be32 h.e

/-- HMAC (RFC 2104) with SHA-1: keys longer than the 64-byte block are hashed first, then
padded with zeros to the block length. -/
def hmacSha1 (key msg : List Nat) : List Nat :=
  let k0 := if key.length > 64 then sha1 key else key
  let k := k0 ++ List.replicate (64 - k0.length) 0
  sha1 (k.map (fun b => b ^^^ 0x5c) ++ sha1 (k.map (fun b => b ^^^ 0x36) ++ msg))

/-- One lowercase hexadecimal digit. -/
def hexDigit (n : Nat) : Char := "0123456789abcdef".data.getD n '0'

/-- Lowercase hexadecimal encoding of a byte string, two digits a byte (`digest('hex')`). -/
def hexEncode (bs : List Nat) : String :=
  ⟨bs.flatMap (fun b => [hexDigit (b / 16 % 16), hexDigit (b % 16)])⟩

/-! ## The payload and its serialization (lines 25-59) -/

/-- JSON values that occur in the payload. -/
inductive Json where
  | str (s : String)
  | num (n : Nat)
  | bool (b : Bool)
  | obj (fields : List (String × Json))

/-- Four lowercase hexadecimal digits of a code unit, as in a `\u` escape. -/
def hex4 (n : Nat) : List Char :=
  [hexDigit (n / 4096 % 16), hexDigit (n / 256 % 16), hexDigit (n / 16 % 16), hexDigit (n % 16)]

/-- The escape `JSON.stringify` writes for one character of a string. -/
def escapeChar (c : Char) : List Char :=
  let bs := Char.ofNat 92
  if c.toNat = 8 then [bs, 'b']
  else if c.toNat = 9 then [bs, 't']
  else if c.toNat = 10 then [bs, 'n']
  else if c.toNat = 12 then [bs, 'f']
  else if c.toNat = 13 then [bs, 'r']
  else if c.toNat = 34 then [bs, Char.ofNat 34]
  else if c.toNat = 92 then [bs, bs]
  else if c.toNat < 32 then bs :: 'u' :: hex4 c.toNat
  else [c]

/-- A string as a JSON string literal. -/
def quote (s : String) : String :=
  ⟨Char.ofNat 34 :: s.data.flatMap escapeChar ++ [Char.ofNat 34]⟩

mutual
/-- `JSON.stringify` (no indentation): members in insertion order. -/
def stringify : Json → String
  | .str s => quote s
  | .num n => toString n
  | .bool b => if b then "true" else "false"
  | .obj fields => "\x7b" ++ stringifyFields fields ++ "\x7d"
/-- The members of an object, separated by commas. -/
def stringifyFields : List (String × Json) → String
  | [] => ""
  | [(k, v)] => quote k ++ ":" ++ stringify v
  | (k, v) :: f :: fs => quote k ++ ":" ++ stringify v ++ "," ++ stringifyFields (f :: fs)
end

/-- The payload object of lines 25-57; `createdAt` and `publishedAt` are the strings the two
calls `new Date().toISOString()` return. -/
def payload (createdAt publishedAt : String) : Json :=
  .obj [
    ("action", .str "published"),
    ("release", .obj [
      ("id", .num 12345678),
      ("tag_name", .str "v1.0.1"),
      ("target_commitish", .str "production"),
      ("name", .str "Release v1.0.1"),
      ("body", .str "Release notes here"),
      ("draft", .bool false),
      ("prerelease", .bool false),
      ("created_at", .str createdAt),
      ("published_at", .str publishedAt)]),
    ("repository", .obj [
      ("id", .num 123456789),
      ("name", .str "suma-ecommerce"),
      ("full_name", .str "AHMnesia/suma-ecommerce"),
      ("private", .bool false),
      ("owner", .obj [
        ("login", .str "AHMnesia"),
        ("id", .num 123456),
        ("type", .str "User")])]),
    ("sender", .obj [
      ("login", .str "AHMnesia"),
      ("id", .num 123456),
      ("type", .str "User")]),
    ("installation", .obj [
      ("id", .num 12345678)])]

/-! ## The URL object behind `new URL(url)` (line 62)

`new URL` is the platform's parser, not code of the script.  It enters the model as a
parameter (`Platform`): a function from the URL text to the fields of the `URL` object, `none`
where it throws.  On URLs of a plain shape the object is computed here (`plainURL`): these are
the URLs `scheme://host[:port][path][?query][#fragment]` with scheme `http` or `https`, a host
that is a lowercase domain name or a dotted-decimal IPv4 address, and path, query and fragment
made of characters the parser copies unchanged.  `newURL` is `plainURL` on those and the
platform's function on every other text (upper case, percent-encoding, dot segments,
credentials, IPv6, numeric hosts, other schemes, backslashes, white space, invalid URLs). -/

/-- The fields of a `URL` object. -/
structure URLRecord where
  protocol : String
  hostname : String
  port : String
  pathname : String
  search : String
  hash : String
  deriving DecidableEq, Repr

/-- Characters of a domain label in the plain shape. -/
def isHostChar (c : Char) : Bool := c.isLower || c.isDigit || c = '-'

/-- Characters the parser copies unchanged into the path. -/
def isPathChar (c : Char) : Bool :=
  c.isAlphanum || "-._~!$&()*+,;=:@/".data.contains c

/-- Characters the parser copies unchanged into the query and the fragment. -/
def isQueryChar (c : Char) : Bool :=
  c.isAlphanum || "-._~!$&()*+,;=:@/?".data.contains c

/-- The value of a string of decimal digits. -/
def digitsValue (ds : List Char) : Nat :=
  ds.foldl (fun acc d => acc * 10 + (d.toNat - '0'.toNat)) 0

/-- A decimal part of an IPv4 address: digits, no leading zero, at most 255. -/
def isIPv4Part (l : List Char) : Bool :=
  !l.isEmpty && l.all Char.isDigit && (l.length = 1 || l.head? != some '0') && digitsValue l ≤ 255

/-- A domain label: not empty, host characters only, not a punycode label. -/
def isDomainLabel (l : List Char) : Bool :=
  !l.isEmpty && l.all isHostChar && !"xn--".data.isPrefixOf l

/-- Hosts of the plain shape: four IPv4 parts, or domain labels the last of which starts
with a letter (so that the host is not read as a number). -/
def isModelledHost (h : List Char) : Bool :=
  let labels := splitChars '.' h
  (labels.length = 4 && labels.all isIPv4Part) ||
  (labels.all isDomainLabel &&
    (match labels.getLast? with
     | some (c :: _) => c.isLower
     | _ => false))

/-- The `port` field: empty when no port is written or when it is the scheme's default,
otherwise the port in decimal without leading zeros; `none` above 65535. -/
def portField (isHttps : Bool) (ds : List Char) : Option String :=
  if ds.isEmpty then some ""
  else
    let n := digitsValue ds
    if n > 65535 then none
    else if n = (if isHttps then 443 else 80) then some ""
    else
      let significant := ds.dropWhile (fun c => c = '0')
      some ⟨if significant.isEmpty then ['0'] else significant⟩

/-- The URL object of a plain URL, from what follows `scheme://`; `none` when the text is
not of the plain shape. -/
def plainAfterScheme (isHttps : Bool) (rest : List Char) : Option URLRecord :=
  let stop : Char → Bool := fun c => c = '/' || c = '?' || c = '#'
  let authority := rest.takeWhile (fun c => !stop c)
  let tail := rest.dropWhile (fun c => !stop c)
  let host := authority.takeWhile (fun c => c != ':')
  let portDigits := (authority.dropWhile (fun c => c != ':')).drop 1
  let path := tail.takeWhile (fun c => !(c = '?' || c = '#'))
  let afterPath := tail.dropWhile (fun c => !(c = '?' || c = '#'))
  let query := if afterPath.head? = some '?' then (afterPath.drop 1).takeWhile (fun c => c != '#') else []
  let afterQuery := afterPath.dropWhile (fun c => c != '#')
  let fragment := afterQuery.drop 1
  if isModelledHost host && portDigits.all Char.isDigit && path.all isPathChar &&
      !(splitChars '/' path).contains ['.'] && !(splitChars '/' path).contains ['.', '.'] &&
      query.all isQueryChar && fragment.all isQueryChar then
    match portField isHttps portDigits with
    | none => none
    | some port =>
      some {
        protocol := if isHttps then "https:" else "http:"
        hostname := ⟨host⟩
        port := port
        pathname := if path.isEmpty then "/" else ⟨path⟩
        search := if query.isEmpty then "" else ⟨'?' :: query⟩
        hash := if fragment.isEmpty then "" else ⟨'#' :: fragment⟩ }
  else none

/-- The URL object of a plain URL; `none` when the text is not of the plain shape (which
says nothing on whether the platform accepts it). -/
def plainURL (u : String) : Option URLRecord :=
  if "http://".data.isPrefixOf u.data then plainAfterScheme false (u.data.drop 7)
  else if "https://".data.isPrefixOf u.data then plainAfterScheme true (u.data.drop 8)
  else none

/-- The platform's `new URL`: the fields of the object it builds, `none` when it throws. -/
abbrev Platform := String → Option URLRecord

/-- The call `new URL(u)`: computed on plain URLs, the platform's answer on all others. -/
def newURL (platform : Platform) (u : String) : Option URLRecord :=
  match plainURL u with
  | some target => some target
  | none => platform u

/-! ## Building and sending the request (lines 20-97) -/

/-- Why the script stops before a request exists: an exception thrown in the body of the
asynchronous function, a type error or the exception of `new URL`. -/
inductive Failure where
  | typeError (what : String)
  | invalidURL (input : String)
  deriving DecidableEq, Repr

/-- The regular-expression replace of line 23, on characters: the first place where a slash
is followed by the end of the input is replaced by nothing. -/
def replaceSlashAtEnd : List Char → List Char
  | [] => []
  | c :: cs => if c = '/' && cs.isEmpty then [] else c :: replaceSlashAtEnd cs

/-- Line 23: the constant `url`.  Calling `.replace` on a value that is not a string throws. -/
def url (argv : List String) (env : Env) : Except Failure String :=
  match urlChosen argv env with
  | .str u => .ok ⟨replaceSlashAtEnd u.data⟩
  | _ => .error (.typeError "replace is not a function")

/-- The call `crypto.createHmac('sha1', key).update(data).digest('hex')` of line 60: a string
key is used as its UTF-8 bytes; a key that is not a string is rejected with a type error. -/
def hmacHex (key : JSVal) (data : String) : Except Failure String :=
  match key with
  | .str k => .ok (hexEncode (hmacSha1 (utf8Bytes k) (utf8Bytes data)))
  | _ => .error (.typeError "The key argument must be a string")

/-- The options object of lines 64-77. -/
structure Options where
  hostname : String
  port : JSVal
  path : String
  method : String
  headers : List (String × JSVal)
  timeout : Nat
  rejectUnauthorized : Bool
  deriving DecidableEq, Repr

/-- Lines 63-77: the request options built from the parsed target. -/
def mkOptions (target : URLRecord) (body signature : String) : Options :=
  let isHttps := target.protocol == "https:"
  { hostname := target.hostname
    port := jsOr (.str target.port) (if isHttps then .num 443 else .num 80)
    path := if target.pathname != "" then target.pathname else "/"
    method := "POST"
    headers := [
      ("Content-Type", .str "application/json"),
      ("Content-Length", .num (byteLength body)),
      ("X-GitHub-Event", .str "release"),
      ("X-Hub-Signature", .str signature)]
    timeout := 10000
    rejectUnauthorized := false }

/-- What the script has done when `req.end()` returns: the module chosen, the options passed
to `request`, the lines logged, and the string passed to the one call of `req.write`. -/
structure Sent where
  https : Bool
  options : Options
  stdout : List String
  body : String
  deriving DecidableEq, Repr

/-- A header of the request. -/
def Sent.header (s : Sent) (name : String) : JSVal := objGet s.options.headers name

/-- The bytes that go on the wire as the request body: the written string in UTF-8. -/
def Sent.transmitted (s : Sent) : List Nat := utf8Bytes s.body

/-- The body of the asynchronous function, lines 21-97, up to `req.end()`. -/
def main (platform : Platform) (argv : List String) (env : Env)
    (createdAt publishedAt : String) : Except Failure Sent :=
  let secret := secret argv env
  match url argv env with
  | .error e => .error e
  | .ok url =>
    let body := stringify (payload createdAt publishedAt)
    match hmacHex secret body with
    | .error e => .error e
    | .ok digest =>
      let signature := "sha1=" ++ digest
      match newURL platform url with
      | none => .error (.invalidURL url)
      | some target =>
        .ok {
          https := target.protocol == "https:"
          options := mkOptions target body signature
          stdout := ["Sending payload to " ++ url, "X-Hub-Signature: " ++ signature]
          body := body }

/-! ## Delivery outcome (lines 83-95) -/

/-- What can happen on the request once it is sent. -/
inductive Event where
  | response (statusCode : Nat)
  | data (chunk : String)
  | ended
  | error (message : String)
  | timeout
  deriving DecidableEq, Repr

/-- The process while the request is in flight. -/
structure Proc where
  stdout : List String
  stderr : List String
  status : Option Nat
  data : String
  exitCode : Option Nat
  deriving DecidableEq, Repr

/-- The process right after `req.end()`. -/
def Proc.start : Proc := ⟨[], [], none, "", none⟩

/-- The listeners the script registers, run on one event.  The response callback (line 83)
logs the status and registers `data` and `end` on the response; `end` (line 87) logs a
non-empty body and exits with 1 for a status of 400 or more, else 0; `error` on the request
(line 92) logs to standard error and exits with 2.  The script registers no listener for
`timeout`, so that event runs no code.  After `process.exit` nothing runs. -/
def step (p : Proc) (ev : Event) : Proc :=
  if p.exitCode.isSome then p
  else
    match ev with
    | .response s =>
      { p with stdout := p.stdout ++ ["Response status: " ++ toString s], status := some s, data := "" }
    | .data chunk =>
      match p.status with
      | some _ => { p with data := p.data ++ chunk }
      | none => p
    | .ended =>
      match p.status with
      | some s =>
        { p with
          stdout := if p.data != "" then p.stdout ++ ["Response body: " ++ p.data] else p.stdout
          exitCode := some (if s ≥ 400 then 1 else 0) }
      | none => p
    | .error message =>
      { p with stderr := p.stderr ++ ["Request error: " ++ message], exitCode := some 2 }
    | .timeout => p

/-- The process after a sequence of events. -/
def run (evs : List Event) : Proc := evs.foldl step Proc.start

/-! ## Vocabulary of the statements -/

/-- The default port of the two schemes the script distinguishes. -/
def defaultPort (protocol : String) : Option Nat :=
  if protocol = "http:" then some 80
  else if protocol = "https:" then some 443
  else none

/-- What the platform's `new URL` returns at three URLs outside the plain shape (an upper-case
host with a dot segment, a percent-encoded query, an IPv6 host), and an exception elsewhere:
a platform to run the model on. -/
def samplePlatform : Platform := fun u =>
  if u = "http://Example.test/a/../b?x=%20y" then
    some ⟨"http:", "example.test", "", "/b", "?x=%20y", ""⟩
  else if u = "http://example.test/hook?redirect=http%3A%2F%2Fx" then
    some ⟨"http:", "example.test", "", "/hook", "?redirect=http%3A%2F%2Fx", ""⟩
  else if u = "https://[::1]:8443/hook" then
    some ⟨"https:", "[::1]", "8443", "/hook", "", ""⟩
  else none

/-- A property of the platform's parser: the pathname of a URL object holds neither `?` nor
`#` (in the text they end the path, and inside a path they are percent-encoded). -/
def pathnameClean (platform : Platform) : Prop :=
  ∀ (u : String) (t : URLRecord), platform u = some t →
    '?' ∉ t.pathname.data ∧ '#' ∉ t.pathname.data

/-- The number a port value stands for: a number itself, a string of digits its value. -/
def portNumber : JSVal → Nat
  | .num n => n
  | .str s => digitsValue s.data
  | _ => 0

/-- The text of an http(s) URL cut into its parts: scheme, host, the digits written after
a colon (if a colon is written), path, and the rest (query and fragment with their marks). -/
structure URLText where
  https : Bool
  host : String
  port : Option String
  path : String
  rest : String

/-- The URL text made of the parts. -/
def URLText.text (x : URLText) : String :=
  (if x.https then "https://" else "http://") ++ x.host ++
    (match x.port with
     | none => ""
     | some d => ":" ++ d) ++ x.path ++ x.rest

/-- The parts are cut at the right places: the host holds none of `:`, `/`, `?`, `#`; the
port is digits; the path is empty or starts with `/` and holds neither `?` nor `#`; the rest
is empty or starts with `?` or `#`. -/
def URLText.wellCut (x : URLText) : Bool :=
  x.host.data.all (fun c => !(c = ':' || c = '/' || c = '?' || c = '#')) &&
  (match x.port with
   | none => true
   | some d => d.data.all Char.isDigit) &&
  (x.path.data.isEmpty || x.path.data.head? = some '/') &&
  x.path.data.all (fun c => !(c = '?' || c = '#')) &&
  (x.rest.data.isEmpty || x.rest.data.head? = some '?' || x.rest.data.head? = some '#')

/-- The port a URL text asks for: the digits written, or the scheme's default when no colon
or no digit is written. -/
def URLText.portAsked (x : URLText) : Nat :=
  match x.port with
  | none => if x.https then 443 else 80
  | some d => if d.data.isEmpty then (if x.https then 443 else 80) else digitsValue d.data

/-- An argument that sets `key`: the bare flag `--key`, or one that starts with `--key=`. -/
def carriesKey (key a : String) : Bool :=
  a == "--" ++ key || startsWith a ("--" ++ key ++ "=")

/-- The last argument (from index 2 on) that sets `key`, if there is one. -/
def lastWithKey (key : String) (argv : List String) : Option String :=
  ((argv.drop 2).filter (carriesKey key)).getLast?

/-- The key an argument starting with `--` is recorded under: the text between the two
dashes and the first `=`. -/
def argKey (a : String) : String := ⟨(a.data.drop 2).takeWhile (fun c => c != '=')⟩

/-- The value an argument is recorded with: `true` without `=`, otherwise the text between
the first `=` and the second one (or the end). -/
def argVal (a : String) : JSVal :=
  if '=' ∈ a.data then
    .str ⟨((a.data.dropWhile (fun c => c != '=')).drop 1).takeWhile (fun c => c != '=')⟩
  else .bool true

/-- The fallback of a setting: the environment variable when it is set and not empty,
otherwise the literal. -/
def envOrLiteral (env : Env) (name lit : String) : JSVal :=
  match env name with
  | some v => if v = "" then .str lit else .str v
  | none => .str lit

/-! ## Lemmas on strings and on `parseArgs` -/

theorem splitChars_eq (sep : Char) (l : List Char) :
    splitChars sep l = l.takeWhile (fun c => c != sep) ::
      (if sep ∈ l then splitChars sep ((l.dropWhile (fun c => c != sep)).drop 1) else []) := by
  induction l with
  | nil => simp [splitChars]
  | cons c cs ih =>
    by_cases h : c = sep
    · subst h
      simp [splitChars]
    · have h2 : ¬ sep = c := fun e => h e.symm
      rw [splitChars, if_neg h, ih]
      simp [List.takeWhile_cons, List.dropWhile_cons, h, h2]

theorem startsWith_dashes (a : String) :
    startsWith a "--" = true ↔ ∃ r, a.data = '-' :: '-' :: r := by
  unfold startsWith
  constructor
  · intro h
    have h2 : ['-', '-'] <+: a.data := by
      have : "--".data = ['-', '-'] := rfl
      rw [this] at h
      exact List.isPrefixOf_iff_prefix.mp h
    obtain ⟨r, hr⟩ := h2
    exact ⟨r, by rw [← hr]; rfl⟩
  · rintro ⟨r, hr⟩
    rw [hr]
    have : "--".data = ['-', '-'] := rfl
    rw [this]
    simp [List.isPrefixOf]

theorem parseArg_eq (o : Obj) (a : String) :
    parseArg o a = if startsWith a "--" then objSet o (argKey a) (argVal a) else o := by
  unfold parseArg
  by_cases hs : startsWith a "--" = true
  · rw [if_pos hs, if_pos hs]
    obtain ⟨r, hr⟩ := (startsWith_dashes a).mp hs
    have hk : stripDashes ⟨a.data.takeWhile (fun c => c != '=')⟩ = argKey a := by
      unfold stripDashes argKey
      have h1 : startsWith ⟨a.data.takeWhile (fun c => c != '=')⟩ "--" = true := by
        rw [startsWith_dashes]
        exact ⟨r.takeWhile (fun c => c != '='), by rw [hr]; simp [List.takeWhile_cons]⟩
      rw [if_pos h1, hr]
      simp [List.takeWhile_cons]
    unfold split
    rw [splitChars_eq]
    by_cases he : '=' ∈ a.data
    · rw [if_pos he, splitChars_eq]
      simp only [List.map_cons]
      rw [hk]
      simp [argVal, he]
    · rw [if_neg he]
      simp only [List.map_cons, List.map_nil]
      rw [hk]
      simp [argVal, he]
  · rw [if_neg hs, if_neg hs]
theorem lookup_filter_ne (o : Obj) (k k' : String) (h : k' ≠ k) :
    (o.filter (fun p => p.1 != k)).lookup k' = o.lookup k' := by
  induction o with
  | nil => rfl
  | cons p ps ih =>
    obtain ⟨pk, pv⟩ := p
    by_cases hp : pk = k
    · subst hp
      have : (k' == pk) = false := by simpa using h
      simp [List.filter_cons, List.lookup_cons, this, ih]
    · by_cases hq : k' = pk
      · subst hq
        simp [List.filter_cons, List.lookup_cons, hp]
      · have : (k' == pk) = false := by simpa using hq
        simp [List.filter_cons, List.lookup_cons, hp, this, ih]

theorem objGet_objSet (o : Obj) (k k' : String) (v : JSVal) :
    objGet (objSet o k v) k' =
      if k = "__proto__" then objGet o k' else if k' = k then v else objGet o k' := by
  unfold objSet
  by_cases hp : k = "__proto__"
  · rw [if_pos hp, if_pos hp]
  · rw [if_neg hp, if_neg hp]
    by_cases hk : k' = k
    · subst hk
      simp [objGet, List.lookup_cons]
    · have : (k' == k) = false := by simpa using hk
      rw [if_neg hk]
      simp only [objGet, List.lookup_cons, this]
      rw [lookup_filter_ne o k k' hk]

theorem takeWhile_append_sep (k v : List Char) (h : '=' ∉ k) :
    (k ++ '=' :: v).takeWhile (fun c => c != '=') = k := by
  induction k with
  | nil => simp
  | cons c cs ih =>
    have hc : c ≠ '=' := fun e => h (by simp [e])
    have hcs : '=' ∉ cs := fun e => h (by simp [e])
    simp [List.takeWhile_cons, hc, ih hcs]

theorem takeWhile_of_not_mem (k : List Char) (h : '=' ∉ k) :
    k.takeWhile (fun c => c != '=') = k := by
  induction k with
  | nil => simp
  | cons c cs ih =>
    have hc : c ≠ '=' := fun e => h (by simp [e])
    have hcs : '=' ∉ cs := fun e => h (by simp [e])
    simp [List.takeWhile_cons, hc, ih hcs]

theorem dropWhile_append_sep (k v : List Char) (h : '=' ∉ k) :
    (k ++ '=' :: v).dropWhile (fun c => c != '=') = '=' :: v := by
  induction k with
  | nil => simp
  | cons c cs ih =>
    have hc : c ≠ '=' := fun e => h (by simp [e])
    have hcs : '=' ∉ cs := fun e => h (by simp [e])
    simp [List.dropWhile_cons, hc, ih hcs]

theorem data_dashes (key : String) : ("--" ++ key).data = '-' :: '-' :: key.data := by
  rw [String.data_append]; rfl

theorem data_dashes_eq (key : String) :
    ("--" ++ key ++ "=").data = '-' :: '-' :: (key.data ++ ['=']) := by
  rw [String.data_append, String.data_append]; rfl

theorem carriesKey_iff (key a : String) (hkey : '=' ∉ key.data) :
    carriesKey key a = true ↔ (startsWith a "--" = true ∧ argKey a = key) := by
  unfold carriesKey
  rw [Bool.or_eq_true, beq_iff_eq]
  constructor
  · rintro (h | h)
    · subst h
      refine ⟨(startsWith_dashes _).mpr ⟨key.data, data_dashes key⟩, ?_⟩
      unfold argKey
      rw [data_dashes]
      simp [takeWhile_of_not_mem key.data hkey]
    · unfold startsWith at h
      rw [data_dashes_eq] at h
      obtain ⟨t, ht⟩ := List.isPrefixOf_iff_prefix.mp h
      have ha : a.data = '-' :: '-' :: (key.data ++ '=' :: t) := by
        rw [← ht]; simp
      refine ⟨(startsWith_dashes _).mpr ⟨_, ha⟩, ?_⟩
      unfold argKey
      rw [ha]
      simp [takeWhile_append_sep key.data t hkey]
  · rintro ⟨hs, hk⟩
    obtain ⟨r, hr⟩ := (startsWith_dashes a).mp hs
    unfold argKey at hk
    rw [hr] at hk
    simp only [List.drop_succ_cons, List.drop_zero] at hk
    have hsplit := List.takeWhile_append_dropWhile (fun c => c != '=') r
    have hk2 : r.takeWhile (fun c => c != '=') = key.data := by
      rw [← hk]
    rw [hk2] at hsplit
    cases hd : r.dropWhile (fun c => c != '=') with
    | nil =>
      left
      rw [hd, List.append_nil] at hsplit
      apply String.ext
      rw [hr, data_dashes, hsplit]
    | cons c t =>
      right
      have hc : c = '=' := by
        have := List.head_dropWhile_not (fun c => c != '=') r (by rw [hd]; simp)
        simp only [hd, List.head_cons] at this
        simpa using this
      subst hc
      unfold startsWith
      rw [data_dashes_eq, hr, ← hsplit, hd]
      apply List.isPrefixOf_iff_prefix.mpr
      exact ⟨t, by simp⟩

theorem objGet_parseArg (o : Obj) (key a : String) (hkey : '=' ∉ key.data)
    (hproto : key ≠ "__proto__") :
    objGet (parseArg o a) key = if carriesKey key a then argVal a else objGet o key := by
  rw [parseArg_eq]
  by_cases hs : startsWith a "--" = true
  · rw [if_pos hs, objGet_objSet]
    by_cases hk : argKey a = key
    · have hc : carriesKey key a = true := (carriesKey_iff key a hkey).mpr ⟨hs, hk⟩
      rw [if_pos hc, hk, if_neg hproto, if_pos rfl]
    · have hc : ¬ carriesKey key a = true := fun h => hk ((carriesKey_iff key a hkey).mp h).2
      rw [if_neg hc]
      have hk2 : ¬ key = argKey a := fun e => hk e.symm
      simp only [if_neg hk2, ite_self]
  · rw [if_neg hs]
    have hc : ¬ carriesKey key a = true := fun h => hs ((carriesKey_iff key a hkey).mp h).1
    rw [if_neg hc]

theorem objGet_foldl_parseArg (key : String) (hkey : '=' ∉ key.data)
    (hproto : key ≠ "__proto__") (l : List String) (o : Obj) :
    objGet (l.foldl parseArg o) key =
      match (l.filter (carriesKey key)).getLast? with
      | none => objGet o key
      | some a => argVal a := by
  induction l generalizing o with
  | nil => rfl
  | cons a l ih =>
    rw [List.foldl_cons, ih, objGet_parseArg o key a hkey hproto]
    by_cases hc : carriesKey key a = true
    · rw [List.filter_cons_of_pos hc, if_pos hc]
      cases hl : l.filter (carriesKey key) with
      | nil => rfl
      | cons b bs =>
        rw [List.getLast?_cons_cons]
        cases hb : (b :: bs).getLast? with
        | none => simp at hb
        | some c => rfl
    · rw [List.filter_cons_of_neg hc, if_neg hc]

/-- What `args[key]` is after `parseArgs`: decided by the last argument that sets `key`. -/
theorem objGet_parseArgs (key : String) (hkey : '=' ∉ key.data) (hproto : key ≠ "__proto__")
    (argv : List String) :
    objGet (parseArgs argv) key =
      match lastWithKey key argv with
      | none => .undefined
      | some a => argVal a := by
  unfold parseArgs lastWithKey
  rw [objGet_foldl_parseArg key hkey hproto]
  rfl

theorem argVal_valued (key V : String) (hkey : '=' ∉ key.data) :
    argVal ("--" ++ key ++ "=" ++ V) = .str ⟨V.data.takeWhile (fun c => c != '=')⟩ := by
  have hd : ("--" ++ key ++ "=" ++ V).data = ('-' :: '-' :: key.data) ++ '=' :: V.data := by
    rw [String.data_append, data_dashes_eq]; simp
  have hk : '=' ∉ ('-' :: '-' :: key.data) := by
    simp only [List.mem_cons, not_or]
    exact ⟨by decide, by decide, hkey⟩
  unfold argVal
  rw [hd, if_pos (by simp), dropWhile_append_sep _ _ hk]
  rfl

theorem argVal_valued_plain (key V : String) (hkey : '=' ∉ key.data) (hV : '=' ∉ V.data) :
    argVal ("--" ++ key ++ "=" ++ V) = .str V := by
  rw [argVal_valued key V hkey, takeWhile_of_not_mem V.data hV]

theorem argVal_bare (key : String) (hkey : '=' ∉ key.data) :
    argVal ("--" ++ key) = .bool true := by
  unfold argVal
  rw [data_dashes, if_neg]
  simp only [List.mem_cons, not_or]
  exact ⟨by decide, by decide, hkey⟩

theorem jsOr_env (env : Env) (name lit : String) :
    jsOr (jsOr .undefined (envGet env name)) (.str lit) = envOrLiteral env name lit := by
  unfold envOrLiteral envGet
  cases h : env name with
  | none => simp [jsOr, JSVal.truthy]
  | some v =>
    by_cases hv : v = ""
    · simp [jsOr, JSVal.truthy, hv]
    · simp [jsOr, JSVal.truthy, hv]

theorem jsOr_env_empty (env : Env) (name lit : String) :
    jsOr (jsOr (.str "") (envGet env name)) (.str lit) = envOrLiteral env name lit := by
  rw [← jsOr_env env name lit]
  simp [jsOr, JSVal.truthy]

theorem lastWithKey_bare (key : String) (argv : List String)
    (hmem : "--" ++ key ∈ argv.drop 2)
    (hno : ∀ a ∈ argv.drop 2, startsWith a ("--" ++ key ++ "=") = false) :
    lastWithKey key argv = some ("--" ++ key) := by
  unfold lastWithKey
  have hall : ∀ a ∈ (argv.drop 2).filter (carriesKey key), a = "--" ++ key := by
    intro a ha
    rw [List.mem_filter] at ha
    have hc := ha.2
    unfold carriesKey at hc
    rw [Bool.or_eq_true, beq_iff_eq] at hc
    rcases hc with h | h
    · exact h
    · rw [hno a ha.1] at h
      exact absurd h (by decide)
  have hin : "--" ++ key ∈ (argv.drop 2).filter (carriesKey key) := by
    rw [List.mem_filter]
    exact ⟨hmem, by simp [carriesKey]⟩
  cases hl : ((argv.drop 2).filter (carriesKey key)).getLast? with
  | none =>
    rw [List.getLast?_eq_none_iff] at hl
    rw [hl] at hin
    simp at hin
  | some b =>
    have hb := List.mem_of_getLast?_eq_some hl
    rw [hall b hb]

theorem secret_key_ok : '=' ∉ "secret".data ∧ "secret" ≠ "__proto__" := by decide

theorem url_key_ok : '=' ∉ "url".data ∧ "url" ≠ "__proto__" := by decide

theorem flag_valued (key V : String) (hkey : '=' ∉ key.data) (hproto : key ≠ "__proto__")
    (argv : List String) (hV : V ≠ "") (hVe : '=' ∉ V.data)
    (hlast : lastWithKey key argv = some ("--" ++ key ++ "=" ++ V)) (b c : JSVal) :
    jsOr (jsOr (objGet (parseArgs argv) key) b) c = .str V := by
  rw [objGet_parseArgs key hkey hproto, hlast]
  simp only [argVal_valued_plain key V hkey hVe]
  simp [jsOr, JSVal.truthy, hV]

theorem flag_absent (key : String) (hkey : '=' ∉ key.data) (hproto : key ≠ "__proto__")
    (argv : List String) (env : Env) (name lit : String)
    (hlast : lastWithKey key argv = none ∨ lastWithKey key argv = some ("--" ++ key ++ "=")) :
    jsOr (jsOr (objGet (parseArgs argv) key) (envGet env name)) (.str lit) =
      envOrLiteral env name lit := by
  rw [objGet_parseArgs key hkey hproto]
  rcases hlast with h | h
  · rw [h]
    exact jsOr_env env name lit
  · rw [h]
    have h2 : argVal ("--" ++ key ++ "=") = .str "" := by
      have := argVal_valued_plain key "" hkey (by simp)
      simpa using this
    simp only [h2]
    exact jsOr_env_empty env name lit

theorem flag_bare (key : String) (hkey : '=' ∉ key.data) (hproto : key ≠ "__proto__")
    (argv : List String)
    (hmem : "--" ++ key ∈ argv.drop 2)
    (hno : ∀ a ∈ argv.drop 2, startsWith a ("--" ++ key ++ "=") = false) (b c : JSVal) :
    jsOr (jsOr (objGet (parseArgs argv) key) b) c = .bool true := by
  rw [objGet_parseArgs key hkey hproto, lastWithKey_bare key argv hmem hno]
  simp only [argVal_bare key hkey]
  simp [jsOr, JSVal.truthy]

/-! ## C4: resolution order -/

/-- C4, as stated, fails: the arguments `--secret=a --secret=b` contain `--secret=a` with a
non-empty value, yet the resolved secret is `b`, the value of the last argument that sets
the key. -/
theorem C4_later_flag_wins :
    "--secret=a" ∈ ["node", "send-trigger.js", "--secret=a", "--secret=b"].drop 2 ∧
    secret ["node", "send-trigger.js", "--secret=a", "--secret=b"] (fun _ => none) = .str "b" ∧
    secret ["node", "send-trigger.js", "--secret=a", "--secret=b"] (fun _ => none) ≠ .str "a" := by
  decide

/-- C4, amended: each setting is resolved in the order flag, environment variable, literal,
where the flag is the last argument that sets the key.  If that argument is `--secret=V`
with `V` non-empty and free of `=`, the secret is `V` whatever the environment holds; if no
argument sets `secret`, or the last one is `--secret=` with an empty value, the secret is
GITHUB_SECRET when that is set to a non-empty string and `mysecret` otherwise.  The target URL
is chosen the same way from `--url=V`, EL_URL and `http://127.0.0.1:8080`. -/
theorem C4_resolution_order (argv : List String) (env : Env) :
    (∀ V : String, V ≠ "" → '=' ∉ V.data →
      lastWithKey "secret" argv = some ("--secret=" ++ V) → secret argv env = .str V) ∧
    ((lastWithKey "secret" argv = none ∨ lastWithKey "secret" argv = some "--secret=") →
      secret argv env = envOrLiteral env "GITHUB_SECRET" "mysecret") ∧
    (∀ V : String, V ≠ "" → '=' ∉ V.data →
      lastWithKey "url" argv = some ("--url=" ++ V) → urlChosen argv env = .str V) ∧
    ((lastWithKey "url" argv = none ∨ lastWithKey "url" argv = some "--url=") →
      urlChosen argv env = envOrLiteral env "EL_URL" "http://127.0.0.1:8080") := by
  refine ⟨?_, ?_, ?_, ?_⟩
  · intro V hV hVe hlast
    exact flag_valued "secret" V secret_key_ok.1 secret_key_ok.2 argv hV hVe hlast _ _
  · intro hlast
    exact flag_absent "secret" secret_key_ok.1 secret_key_ok.2 argv env _ _ hlast
  · intro V hV hVe hlast
    exact flag_valued "url" V url_key_ok.1 url_key_ok.2 argv hV hVe hlast _ _
  · intro hlast
    exact flag_absent "url" url_key_ok.1 url_key_ok.2 argv env _ _ hlast

/-- C4 at concrete inputs: the last `--secret=` wins over an earlier one and over the
environment, and without flags the environment, then the literal, is used. -/
theorem C4_resolution_order_witness :
    secret ["node", "send-trigger.js", "--secret=old", "--url=http://example.test:9999/hook",
        "--secret=s3cr3t"]
      (fun n => if n = "GITHUB_SECRET" then some "fromenv" else none) = .str "s3cr3t" ∧
    secret ["node", "send-trigger.js"]
      (fun n => if n = "GITHUB_SECRET" then some "fromenv" else none) = .str "fromenv" ∧
    urlChosen ["node", "send-trigger.js", "--secret=old", "--url=http://example.test:9999/hook",
        "--secret=s3cr3t"]
      (fun n => if n = "GITHUB_SECRET" then some "fromenv" else none) =
        .str "http://example.test:9999/hook" ∧
    urlChosen ["node", "send-trigger.js", "--url="]
      (fun n => if n = "GITHUB_SECRET" then some "fromenv" else none) =
        .str "http://127.0.0.1:8080" :=
  ⟨(C4_resolution_order _ _).1 "s3cr3t" (by decide) (by decide) (by decide),
   (C4_resolution_order _ _).2.1 (Or.inl (by decide)),
   (C4_resolution_order _ _).2.2.1 "http://example.test:9999/hook" (by decide) (by decide)
     (by decide),
   (C4_resolution_order _ _).2.2.2 (Or.inr (by decide))⟩

/-! ## C5: the bare flag -/

/-- C5 at the bare flag `--secret` with GITHUB_SECRET set: the secret the script resolves is
not the environment's value but the marker `true`, and whatever the platform's URL parser
does, the script stops with a type error at `createHmac` and sends nothing.  With
`--secret=` or with no flag at all, the same environment gives the fallback the claim
describes. -/
theorem C5_bare_secret_is_used :
    secret ["node", "send-trigger.js", "--secret"]
      (fun n => if n = "GITHUB_SECRET" then some "fromenv" else none) = .bool true ∧
    secret ["node", "send-trigger.js", "--secret"]
      (fun n => if n = "GITHUB_SECRET" then some "fromenv" else none) ≠ .str "fromenv" ∧
    (∀ platform : Platform,
      main platform ["node", "send-trigger.js", "--secret"]
        (fun n => if n = "GITHUB_SECRET" then some "fromenv" else none)
        "2026-11-04T21:18:00.000Z" "2026-11-04T21:18:00.000Z" =
          .error (.typeError "The key argument must be a string")) ∧
    secret ["node", "send-trigger.js", "--secret="]
      (fun n => if n = "GITHUB_SECRET" then some "fromenv" else none) = .str "fromenv" ∧
    secret ["node", "send-trigger.js"]
      (fun n => if n = "GITHUB_SECRET" then some "fromenv" else none) = .str "fromenv" :=
  ⟨by decide, by decide, fun _ => rfl, by decide, by decide⟩

theorem main_error_of_secret_bool (platform : Platform) (argv : List String) (env : Env)
    (c p : String) (h : secret argv env = .bool true) :
    main platform argv env c p = .error (.typeError "replace is not a function") ∨
    main platform argv env c p = .error (.typeError "The key argument must be a string") := by
  unfold main
  cases hu : urlChosen argv env with
  | undefined => left; simp [url, hu]
  | bool b => left; simp [url, hu]
  | num n => left; simp [url, hu]
  | str u =>
    right
    simp only [url, hu, h, hmacHex]

theorem main_error_of_url_bool (platform : Platform) (argv : List String) (env : Env)
    (c p : String) (h : urlChosen argv env = .bool true) :
    main platform argv env c p = .error (.typeError "replace is not a function") := by
  unfold main url
  simp only [h]

/-- What the script does with a flag that appears only in bare form, in general: the marker
`true` is what lines 22-23 select, whatever the environment holds, and the script stops with a
type error (at `.replace` for the URL, at `createHmac` for the secret). -/
theorem bare_flag_marker_selected (argv : List String) (env : Env) :
    (("--secret" ∈ argv.drop 2 ∧ ∀ a ∈ argv.drop 2, startsWith a "--secret=" = false) →
      secret argv env = .bool true ∧
      ∀ (platform : Platform) (c p : String),
        main platform argv env c p = .error (.typeError "replace is not a function") ∨
        main platform argv env c p = .error (.typeError "The key argument must be a string")) ∧
    (("--url" ∈ argv.drop 2 ∧ ∀ a ∈ argv.drop 2, startsWith a "--url=" = false) →
      urlChosen argv env = .bool true ∧
      ∀ (platform : Platform) (c p : String),
        main platform argv env c p = .error (.typeError "replace is not a function")) := by
  constructor
  · rintro ⟨hmem, hno⟩
    have h : secret argv env = .bool true :=
      flag_bare "secret" secret_key_ok.1 secret_key_ok.2 argv hmem hno _ _
    exact ⟨h, fun platform c p => main_error_of_secret_bool platform argv env c p h⟩
  · rintro ⟨hmem, hno⟩
    have h : urlChosen argv env = .bool true :=
      flag_bare "url" url_key_ok.1 url_key_ok.2 argv hmem hno _ _
    exact ⟨h, fun platform c p => main_error_of_url_bool platform argv env c p h⟩

/-! ## C6: what `parseArgs` records -/

/-- C6 at `--url=http://host/hook?a=b`: the value recorded for `url` stops at the second
`=`; it is `http://host/hook?a`, not the whole text after the first `=`. -/
theorem C6_value_cut_at_second_eq :
    parseArgs ["node", "send-trigger.js", "--url=http://host/hook?a=b"] =
      [("url", .str "http://host/hook?a")] ∧
    objGet (parseArgs ["node", "send-trigger.js", "--url=http://host/hook?a=b"]) "url" ≠
      .str "http://host/hook?a=b" := by
  decide

/-- The general shape of what `parseArgs` records (the part of C6 that holds): for a key
without `=` other than `__proto__`, when the last argument that sets the key is `--K=V` the
key is mapped to `V` up to its first `=` (to all of `V` when `V` has no `=`), and when it
is the bare `--K` the key is mapped to `true`; an argument that does not start with `--`
changes nothing. -/
theorem parseArgs_records (key : String) (hkey : '=' ∉ key.data) (hproto : key ≠ "__proto__")
    (argv : List String) :
    (∀ V : String, lastWithKey key argv = some ("--" ++ key ++ "=" ++ V) →
      objGet (parseArgs argv) key = .str ⟨V.data.takeWhile (fun c => c != '=')⟩) ∧
    (lastWithKey key argv = some ("--" ++ key) → objGet (parseArgs argv) key = .bool true) ∧
    (∀ (o : Obj) (a : String), startsWith a "--" = false → parseArg o a = o) := by
  refine ⟨?_, ?_, ?_⟩
  · intro V h
    rw [objGet_parseArgs key hkey hproto, h]
    exact argVal_valued key V hkey
  · intro h
    rw [objGet_parseArgs key hkey hproto, h]
    exact argVal_bare key hkey
  · intro o a h
    rw [parseArg_eq, h]
    rfl

/-! ## The request the script builds -/

theorem newURL_of_plain (platform : Platform) (u : String) (t : URLRecord)
    (h : plainURL u = some t) : newURL platform u = some t := by
  unfold newURL
  rw [h]

theorem newURL_cases (platform : Platform) (u : String) (t : URLRecord)
    (h : newURL platform u = some t) : plainURL u = some t ∨ platform u = some t := by
  unfold newURL at h
  cases hp : plainURL u with
  | none => rw [hp] at h; exact Or.inr h
  | some r => rw [hp] at h; exact Or.inl h

theorem main_ok_inv (platform : Platform) (argv : List String) (env : Env) (c p : String)
    (sent : Sent) (h : main platform argv env c p = .ok sent) :
    ∃ s u target,
      secret argv env = .str s ∧ urlChosen argv env = .str u ∧
      url argv env = .ok ⟨replaceSlashAtEnd u.data⟩ ∧
      newURL platform ⟨replaceSlashAtEnd u.data⟩ = some target ∧
      sent =
        { https := target.protocol == "https:"
          options := mkOptions target (stringify (payload c p))
            ("sha1=" ++ hexEncode (hmacSha1 (utf8Bytes s) (utf8Bytes (stringify (payload c p)))))
          stdout := ["Sending payload to " ++ (⟨replaceSlashAtEnd u.data⟩ : String),
            "X-Hub-Signature: " ++ ("sha1=" ++
              hexEncode (hmacSha1 (utf8Bytes s) (utf8Bytes (stringify (payload c p)))))]
          body := stringify (payload c p) } := by
  unfold main at h
  cases hu : urlChosen argv env with
  | undefined => simp [url, hu] at h
  | bool b => simp [url, hu] at h
  | num n => simp [url, hu] at h
  | str u =>
    have hurl : url argv env = .ok ⟨replaceSlashAtEnd u.data⟩ := by simp [url, hu]
    rw [hurl] at h
    simp only at h
    cases hs : secret argv env with
    | undefined => simp [hs, hmacHex] at h
    | bool b => simp [hs, hmacHex] at h
    | num n => simp [hs, hmacHex] at h
    | str s =>
      simp only [hs, hmacHex] at h
      cases ht : newURL platform ⟨replaceSlashAtEnd u.data⟩ with
      | none => simp [ht] at h
      | some target =>
        simp only [ht] at h
        refine ⟨s, u, target, rfl, rfl, hurl, ht, ?_⟩
        injection h with h
        exact h.symm

theorem main_ok (platform : Platform) (argv : List String) (env : Env) (c p s u : String)
    (target : URLRecord)
    (hs : secret argv env = .str s) (hu : urlChosen argv env = .str u)
    (ht : newURL platform ⟨replaceSlashAtEnd u.data⟩ = some target) :
    main platform argv env c p = .ok
        { https := target.protocol == "https:"
          options := mkOptions target (stringify (payload c p))
            ("sha1=" ++ hexEncode (hmacSha1 (utf8Bytes s) (utf8Bytes (stringify (payload c p)))))
          stdout := ["Sending payload to " ++ (⟨replaceSlashAtEnd u.data⟩ : String),
            "X-Hub-Signature: " ++ ("sha1=" ++
              hexEncode (hmacSha1 (utf8Bytes s) (utf8Bytes (stringify (payload c p)))))]
          body := stringify (payload c p) } := by
  unfold main url
  simp only [hu, hs, hmacHex, ht]

theorem header_contentLength (t : URLRecord) (body sig : String) :
    objGet (mkOptions t body sig).headers "Content-Length" = .num (byteLength body) := by
  simp [mkOptions, objGet, List.lookup]

theorem header_signature (t : URLRecord) (body sig : String) :
    objGet (mkOptions t body sig).headers "X-Hub-Signature" = .str sig := by
  simp [mkOptions, objGet, List.lookup]

/-! ## C1 and C2: signature and length headers -/

theorem sha1_length (m : List Nat) : (sha1 m).length = 20 := by
  simp [sha1, be32]

theorem hmacSha1_length (key msg : List Nat) : (hmacSha1 key msg).length = 20 := by
  unfold hmacSha1
  exact sha1_length _

theorem hexEncode_length (bs : List Nat) : (hexEncode bs).length = 2 * bs.length := by
  unfold hexEncode
  show (bs.flatMap _).length = _
  induction bs with
  | nil => rfl
  | cons b bs ih =>
    rw [List.flatMap_cons, List.length_append, ih]
    simp only [List.length_cons, List.length_nil]
    omega

theorem hexDigit_mem (n : Nat) (h : n < 16) : hexDigit n ∈ "0123456789abcdef".data := by
  revert n
  decide

theorem hexEncode_chars (bs : List Nat) :
    ∀ ch ∈ (hexEncode bs).data, ch ∈ "0123456789abcdef".data := by
  intro ch hch
  unfold hexEncode at hch
  simp only [List.mem_flatMap, List.mem_cons, List.mem_singleton, List.not_mem_nil,
    or_false] at hch
  obtain ⟨b, _, hb | hb⟩ := hch
  · rw [hb]
    exact hexDigit_mem _ (Nat.mod_lt _ (by decide))
  · rw [hb]
    exact hexDigit_mem _ (Nat.mod_lt _ (by decide))

theorem utf8EncodeChar_length (c : Char) : (utf8EncodeChar c).length = utf8Size c := by
  unfold utf8EncodeChar utf8Size
  simp only
  split
  · rfl
  · split
    · rfl
    · split <;> rfl

theorem byteLength_eq (s : String) : byteLength s = (utf8Bytes s).length := by
  unfold byteLength utf8Bytes
  induction s.data with
  | nil => rfl
  | cons c cs ih =>
    rw [List.map_cons, List.sum_cons, List.flatMap_cons, List.length_append, ih,
      utf8EncodeChar_length]

/-- C1: whatever the platform's URL parser, whenever the script builds a request, the
resolved secret is a string `s`, the X-Hub-Signature header is `sha1=` followed by the
hexadecimal HMAC-SHA1 keyed by the UTF-8 bytes of `s` over the bytes transmitted as the body,
these bytes being the UTF-8 encoding of the one string written to the request, which is the one
serialization of the payload; the hexadecimal part has 40 characters, all lowercase
hexadecimal digits. -/
theorem C1_signature_over_written_body (platform : Platform) (argv : List String) (env : Env)
    (c p : String) (sent : Sent) (h : main platform argv env c p = .ok sent) :
    ∃ s : String, secret argv env = .str s ∧
      sent.header "X-Hub-Signature" =
        .str ("sha1=" ++ hexEncode (hmacSha1 (utf8Bytes s) sent.transmitted)) ∧
      sent.transmitted = utf8Bytes sent.body ∧
      sent.body = stringify (payload c p) ∧
      (hexEncode (hmacSha1 (utf8Bytes s) sent.transmitted)).length = 40 ∧
      ∀ ch ∈ (hexEncode (hmacSha1 (utf8Bytes s) sent.transmitted)).data,
        ch ∈ "0123456789abcdef".data := by
  obtain ⟨s, u, target, hs, _, _, _, hsent⟩ := main_ok_inv platform argv env c p sent h
  refine ⟨s, hs, ?_, rfl, ?_, ?_, hexEncode_chars _⟩
  · rw [hsent]
    exact header_signature _ _ _
  · rw [hsent]
  · rw [hexEncode_length, hmacSha1_length]

/-- C2: whatever the platform's URL parser, whenever the script builds a request, its
Content-Length header is the number of bytes transmitted as the body, the UTF-8 encoding of
the written string. -/
theorem C2_content_length (platform : Platform) (argv : List String) (env : Env)
    (c p : String) (sent : Sent) (h : main platform argv env c p = .ok sent) :
    sent.header "Content-Length" = .num sent.transmitted.length ∧
    sent.transmitted = utf8Bytes sent.body := by
  obtain ⟨s, u, target, _, _, _, _, hsent⟩ := main_ok_inv platform argv env c p sent h
  refine ⟨?_, rfl⟩
  rw [hsent]
  show objGet (mkOptions _ _ _).headers "Content-Length" = _
  rw [header_contentLength, byteLength_eq]
  rfl

set_option maxRecDepth 100000 in
/-- HMAC-SHA1 as modelled agrees with the test cases 1 and 2 of RFC 2202. -/
theorem hmacSha1_rfc2202 :
    hexEncode (hmacSha1 (List.replicate 20 0x0b) (utf8Bytes "Hi There")) =
      "b617318655057264e28bc0b6fb378c8ef146be00" ∧
    hexEncode (hmacSha1 (utf8Bytes "Jefe") (utf8Bytes "what do ya want for nothing?")) =
      "effcdf6ae5eb2fa2d27416d5f184df9c259a7c79" := by
  decide

/-- The byte length is not the character count: `é` is one character and two bytes. -/
theorem byteLength_not_char_count : byteLength "é" = 2 ∧ "é".length = 1 := by
  decide

set_option maxRecDepth 100000 in
/-- C1 at a concrete input: with `--secret=s3cr3t` the header is `sha1=` followed by the
HMAC-SHA1 of the written body under the key `s3cr3t`. -/
theorem C1_signature_over_written_body_witness :
    ∃ sent : Sent,
      main samplePlatform
        ["node", "send-trigger.js", "--secret=s3cr3t", "--url=http://example.test:9999/hook"]
        (fun _ => none) "2026-11-04T21:18:00.000Z" "2026-11-04T21:18:00.000Z" = .ok sent ∧
      sent.header "X-Hub-Signature" = .str "sha1=730679a45392c15305e3911903fdac20085bd2df" := by
  have h := main_ok samplePlatform
    ["node", "send-trigger.js", "--secret=s3cr3t", "--url=http://example.test:9999/hook"]
    (fun _ => none) "2026-11-04T21:18:00.000Z" "2026-11-04T21:18:00.000Z"
    "s3cr3t" "http://example.test:9999/hook"
    ⟨"http:", "example.test", "9999", "/hook", "", ""⟩ (by decide) (by decide)
    (newURL_of_plain _ _ _ (by decide))
  refine ⟨_, h, ?_⟩
  obtain ⟨s, hs, hsig, -, -, -, -⟩ := C1_signature_over_written_body _ _ _ _ _ _ h
  have hs2 : s = "s3cr3t" := by
    have : secret
        ["node", "send-trigger.js", "--secret=s3cr3t", "--url=http://example.test:9999/hook"]
        (fun _ => none) = .str "s3cr3t" := by decide
    rw [this] at hs
    injection hs with hs
    exact hs.symm
  subst hs2
  rw [hsig]
  decide

set_option maxRecDepth 100000 in
/-- C2 at a concrete input: the 517 bytes of the body are what Content-Length declares. -/
theorem C2_content_length_witness :
    ∃ sent : Sent,
      main samplePlatform
        ["node", "send-trigger.js", "--secret=s3cr3t", "--url=http://example.test:9999/hook"]
        (fun _ => none) "2026-11-04T21:18:00.000Z" "2026-11-04T21:18:00.000Z" = .ok sent ∧
      sent.header "Content-Length" = .num 517 ∧ sent.transmitted.length = 517 := by
  have h := main_ok samplePlatform
    ["node", "send-trigger.js", "--secret=s3cr3t", "--url=http://example.test:9999/hook"]
    (fun _ => none) "2026-11-04T21:18:00.000Z" "2026-11-04T21:18:00.000Z"
    "s3cr3t" "http://example.test:9999/hook"
    ⟨"http:", "example.test", "9999", "/hook", "", ""⟩ (by decide) (by decide)
    (newURL_of_plain _ _ _ (by decide))
  refine ⟨_, h, ?_⟩
  have hc := (C2_content_length _ _ _ _ _ _ h).1
  have hl : (Sent.transmitted
      { https := (⟨"http:", "example.test", "9999", "/hook", "", ""⟩ : URLRecord).protocol == "https:"
        options := mkOptions ⟨"http:", "example.test", "9999", "/hook", "", ""⟩
          (stringify (payload "2026-11-04T21:18:00.000Z" "2026-11-04T21:18:00.000Z"))
          ("sha1=" ++ hexEncode (hmacSha1 (utf8Bytes "s3cr3t")
            (utf8Bytes (stringify (payload "2026-11-04T21:18:00.000Z" "2026-11-04T21:18:00.000Z")))))
        stdout := ["Sending payload to " ++
            (⟨replaceSlashAtEnd "http://example.test:9999/hook".data⟩ : String),
          "X-Hub-Signature: " ++ ("sha1=" ++ hexEncode (hmacSha1 (utf8Bytes "s3cr3t")
            (utf8Bytes (stringify (payload "2026-11-04T21:18:00.000Z" "2026-11-04T21:18:00.000Z")))))]
        body := stringify (payload "2026-11-04T21:18:00.000Z" "2026-11-04T21:18:00.000Z") }).length
      = 517 := by
    show (utf8Bytes (stringify (payload "2026-11-04T21:18:00.000Z" "2026-11-04T21:18:00.000Z"))).length = 517
    decide
  exact ⟨by rw [hc, hl], hl⟩

/-! ## C3 and C9: the delivery outcome -/

theorem step_exited (p : Proc) (ev : Event) (h : p.exitCode.isSome = true) : step p ev = p := by
  unfold step
  rw [if_pos h]

theorem foldl_step_data (p : Proc) (s : Nat) (chunks : List String)
    (hs : p.status = some s) (he : p.exitCode = none) :
    ((chunks.map Event.data).foldl step p).status = some s ∧
    ((chunks.map Event.data).foldl step p).exitCode = none := by
  induction chunks generalizing p with
  | nil => exact ⟨hs, he⟩
  | cons c cs ih =>
    rw [List.map_cons, List.foldl_cons]
    apply ih
    · simp [step, he, hs]
    · simp [step, he, hs]

theorem step_ended (p : Proc) (s : Nat) (hs : p.status = some s) (he : p.exitCode = none) :
    (step p Event.ended).exitCode = some (if s < 400 then 0 else 1) := by
  unfold step
  simp only [he, hs, Option.isSome_none, Bool.false_eq_true, if_false]
  by_cases h400 : s < 400
  · have : ¬ s ≥ 400 := by omega
    simp [h400, this]
  · have : s ≥ 400 := by omega
    simp [h400, this]

theorem step_exitCode_range (p : Proc) (ev : Event)
    (h : p.exitCode = none ∨ p.exitCode = some 0 ∨ p.exitCode = some 1 ∨ p.exitCode = some 2) :
    (step p ev).exitCode = none ∨ (step p ev).exitCode = some 0 ∨
      (step p ev).exitCode = some 1 ∨ (step p ev).exitCode = some 2 := by
  unfold step
  by_cases he : p.exitCode.isSome = true
  · rw [if_pos he]
    exact h
  · rw [if_neg he]
    have hn : p.exitCode = none := by
      cases hp : p.exitCode with
      | none => rfl
      | some x => simp [hp] at he
    cases ev with
    | response s => simp [hn]
    | data chunk =>
      cases hst : p.status with
      | none => simp [hn]
      | some s => simp [hn]
    | ended =>
      cases hst : p.status with
      | none => simp [hn]
      | some s =>
        by_cases h400 : s ≥ 400
        · simp [h400]
        · simp [h400]
    | error m => simp
    | timeout => simp [hn]

theorem foldl_step_exitCode_range (evs : List Event) (p : Proc)
    (h : p.exitCode = none ∨ p.exitCode = some 0 ∨ p.exitCode = some 1 ∨ p.exitCode = some 2) :
    (evs.foldl step p).exitCode = none ∨ (evs.foldl step p).exitCode = some 0 ∨
      (evs.foldl step p).exitCode = some 1 ∨ (evs.foldl step p).exitCode = some 2 := by
  induction evs generalizing p with
  | nil => exact h
  | cons e es ih =>
    rw [List.foldl_cons]
    exact ih _ (step_exitCode_range p e h)

/-- C3: a response with status `s` whose body (any number of chunks) has ended makes the
process exit with 0 when `s < 400` and with 1 when `s ≥ 400` (399 gives 0, 400 gives 1); an
error on the request before any response makes it exit with 2; and whatever events occur,
the handlers produce no exit code other than 0, 1 and 2. -/
theorem C3_exit_codes :
    (∀ (s : Nat) (chunks : List String),
      (run (Event.response s :: (chunks.map Event.data ++ [Event.ended]))).exitCode =
        some (if s < 400 then 0 else 1)) ∧
    (run [Event.response 399, Event.ended]).exitCode = some 0 ∧
    (run [Event.response 400, Event.ended]).exitCode = some 1 ∧
    (∀ message : String, (run [Event.error message]).exitCode = some 2) ∧
    (∀ evs : List Event,
      (run evs).exitCode = none ∨ (run evs).exitCode = some 0 ∨
        (run evs).exitCode = some 1 ∨ (run evs).exitCode = some 2) := by
  refine ⟨?_, by decide, by decide, ?_, ?_⟩
  · intro s chunks
    unfold run
    rw [List.foldl_cons, List.foldl_append]
    have h0 : (step Proc.start (Event.response s)).status = some s := by
      simp [step, Proc.start]
    have h1 : (step Proc.start (Event.response s)).exitCode = none := by
      simp [step, Proc.start]
    obtain ⟨hs, he⟩ := foldl_step_data _ s chunks h0 h1
    simp only [List.foldl_cons, List.foldl_nil]
    exact step_ended _ s hs he
  · intro message
    simp [run, step, Proc.start]
  · intro evs
    exact foldl_step_exitCode_range evs Proc.start (Or.inl rfl)

/-- C9 at the event `timeout`: the script registers no listener for it, so the process does
not exit (no exit code 2, no line on standard error), however often the event fires. -/
theorem C9_timeout_runs_no_listener :
    (run [Event.timeout]).exitCode = none ∧
    (run [Event.timeout]).stderr = [] ∧
    (∀ p : Proc, step p Event.timeout = p) ∧
    (∀ n : Nat, (run (List.replicate n Event.timeout)).exitCode = none) := by
  have hstep : ∀ p : Proc, step p Event.timeout = p := by
    intro p
    unfold step
    split <;> rfl
  refine ⟨by decide, by decide, hstep, ?_⟩
  intro n
  have : run (List.replicate n Event.timeout) = Proc.start := by
    unfold run
    induction n with
    | zero => rfl
    | succ k ih => rw [List.replicate_succ, List.foldl_cons, hstep, ih]
  rw [this]
  rfl

/-! ## Lemmas on the URL parser and the trailing slash -/

theorem replaceSlashAtEnd_concat (t : List Char) : replaceSlashAtEnd (t ++ ['/']) = t := by
  induction t with
  | nil => rfl
  | cons c t ih =>
    have : (t ++ ['/']).isEmpty = false := by cases t <;> rfl
    rw [List.cons_append, replaceSlashAtEnd, this, Bool.and_false, ih]
    rfl

theorem replaceSlashAtEnd_other (l : List Char) (h : l.getLast? ≠ some '/') :
    replaceSlashAtEnd l = l := by
  induction l with
  | nil => rfl
  | cons c cs ih =>
    cases cs with
    | nil =>
      have hc : c ≠ '/' := fun e => h (by rw [e]; rfl)
      simp [replaceSlashAtEnd, hc]
    | cons d ds =>
      have h2 : (d :: ds).getLast? ≠ some '/' := by
        rw [List.getLast?_cons_cons] at h
        exact h
      rw [replaceSlashAtEnd, ih h2]
      simp

theorem endsWith_slash_iff (u : String) :
    endsWith u "/" = true ↔ u.data.getLast? = some '/' := by
  unfold endsWith
  have hd : "/".data = ['/'] := rfl
  rw [hd, List.isSuffixOf_iff_suffix]
  constructor
  · rintro ⟨t, ht⟩
    rw [← ht, List.getLast?_append]
    rfl
  · intro h
    obtain ⟨t, ht⟩ : ∃ t, u.data = t ++ ['/'] := by
      have hne : u.data ≠ [] := by
        intro e
        rw [e] at h
        simp at h
      refine ⟨u.data.dropLast, ?_⟩
      have h1 := List.dropLast_append_getLast hne
      have h2 : u.data.getLast hne = '/' := by
        rw [List.getLast?_eq_getLast _ hne] at h
        injection h
      rw [h2] at h1
      exact h1.symm
    exact ⟨t, ht.symm⟩

theorem replaceSlashAtEnd_eq (u : String) :
    (⟨replaceSlashAtEnd u.data⟩ : String) = if endsWith u "/" then ⟨u.data.dropLast⟩ else u := by
  by_cases h : endsWith u "/" = true
  · rw [if_pos h]
    have h2 := (endsWith_slash_iff u).mp h
    have hne : u.data ≠ [] := by
      intro e
      rw [e] at h2
      simp at h2
    have h3 : u.data.getLast hne = '/' := by
      rw [List.getLast?_eq_getLast _ hne] at h2
      injection h2
    have h1 := List.dropLast_append_getLast hne
    rw [h3] at h1
    congr 1
    conv_lhs => rw [← h1]
    exact replaceSlashAtEnd_concat _
  · rw [if_neg h]
    have h2 : u.data.getLast? ≠ some '/' := fun e => h ((endsWith_slash_iff u).mpr e)
    rw [replaceSlashAtEnd_other _ h2]

theorem takeWhile_append_stop (p : Char → Bool) (r q : List Char) (x : Char) (hx : p x = false) :
    (r ++ x :: q).takeWhile p = r.takeWhile p := by
  induction r with
  | nil => simp [List.takeWhile_cons, hx]
  | cons c cs ih =>
    by_cases hc : p c = true
    · simp [List.takeWhile_cons, hc, ih]
    · simp [List.takeWhile_cons, hc]

theorem dropWhile_append_stop (p : Char → Bool) (r q : List Char) (x : Char) (hx : p x = false) :
    (r ++ x :: q).dropWhile p = r.dropWhile p ++ x :: q := by
  induction r with
  | nil => simp [List.dropWhile_cons, hx]
  | cons c cs ih =>
    by_cases hc : p c = true
    · simp [List.dropWhile_cons, hc, ih]
    · simp [List.dropWhile_cons, hc]

theorem isPrefixOf_append_stop (p b q : List Char) (x : Char) (hx : x ∉ p) :
    p.isPrefixOf (b ++ x :: q) = p.isPrefixOf b := by
  induction p generalizing b with
  | nil => simp [List.isPrefixOf]
  | cons c cs ih =>
    have hc : c ≠ x := fun e => hx (by simp [e])
    have hcs : x ∉ cs := fun e => hx (by simp [e])
    cases b with
    | nil => simp [List.isPrefixOf, hc]
    | cons d ds =>
      have h := ih ds hcs
      simp only [List.cons_append, List.isPrefixOf]
      exact congrArg (fun t => (c == d && t)) h

theorem plainAfterScheme_some (isHttps : Bool) (rest : List Char) (t : URLRecord)
    (h : plainAfterScheme isHttps rest = some t) :
    t.protocol = (if isHttps then "https:" else "http:") ∧
    t.hostname = ⟨((rest.takeWhile (fun c => !(c = '/' || c = '?' || c = '#'))).takeWhile
      (fun c => c != ':'))⟩ ∧
    portField isHttps (((rest.takeWhile (fun c => !(c = '/' || c = '?' || c = '#'))).dropWhile
      (fun c => c != ':')).drop 1) = some t.port ∧
    t.pathname =
      (if ((rest.dropWhile (fun c => !(c = '/' || c = '?' || c = '#'))).takeWhile
          (fun c => !(c = '?' || c = '#'))).isEmpty then "/"
       else ⟨(rest.dropWhile (fun c => !(c = '/' || c = '?' || c = '#'))).takeWhile
          (fun c => !(c = '?' || c = '#'))⟩) := by
  unfold plainAfterScheme at h
  simp only at h
  rw [Option.ite_none_right_eq_some] at h
  have h2 := h.2
  clear h
  split at h2
  · exact absurd h2 (by simp)
  · rename_i port hport
    injection h2 with h2
    subst h2
    exact ⟨rfl, rfl, hport, rfl⟩

theorem plainURL_some (u : String) (t : URLRecord) (h : plainURL u = some t) :
    (t.protocol = "http:" ∨ t.protocol = "https:") ∧ t.pathname ≠ "" ∧
    '?' ∉ t.pathname.data ∧ '#' ∉ t.pathname.data := by
  have key : ∀ (isHttps : Bool) (rest : List Char), plainAfterScheme isHttps rest = some t →
      (t.protocol = "http:" ∨ t.protocol = "https:") ∧ t.pathname ≠ "" ∧
      '?' ∉ t.pathname.data ∧ '#' ∉ t.pathname.data := by
    intro isHttps rest h
    obtain ⟨hp, -, -, hpath⟩ := plainAfterScheme_some isHttps rest t h
    refine ⟨?_, ?_, ?_, ?_⟩
    · cases isHttps
      · left; simpa using hp
      · right; simpa using hp
    · rw [hpath]
      split
      · decide
      · rename_i hne
        intro e
        apply hne
        have := congrArg String.data e
        simp only at this
        rw [this]
        rfl
    · rw [hpath]
      split
      · decide
      · intro hm
        have := List.mem_takeWhile_imp hm
        simp at this
    · rw [hpath]
      split
      · decide
      · intro hm
        have := List.mem_takeWhile_imp hm
        simp at this
  unfold plainURL at h
  split at h
  · exact key _ _ h
  · split at h
    · exact key _ _ h
    · exact absurd h (by simp)

theorem mkOptions_path (t : URLRecord) (body sig : String) (h : t.pathname ≠ "") :
    (mkOptions t body sig).path = t.pathname := by
  simp [mkOptions, h]

theorem secret_without_flag (argv : List String) (env : Env)
    (h : lastWithKey "secret" argv = none) :
    ∃ s, secret argv env = .str s := by
  have h2 : secret argv env = envOrLiteral env "GITHUB_SECRET" "mysecret" :=
    flag_absent "secret" secret_key_ok.1 secret_key_ok.2 argv env _ _ (Or.inl h)
  rw [h2]
  unfold envOrLiteral
  cases env "GITHUB_SECRET" with
  | none => exact ⟨_, rfl⟩
  | some v =>
    by_cases hv : v = ""
    · exact ⟨"mysecret", by simp [hv]⟩
    · exact ⟨v, by simp [hv]⟩

theorem url_ok_inv (argv : List String) (env : Env) (u : String) (h : url argv env = .ok u) :
    ∃ v : String, urlChosen argv env = .str v ∧ u = ⟨replaceSlashAtEnd v.data⟩ := by
  unfold url at h
  cases hu : urlChosen argv env with
  | undefined => simp [hu] at h
  | bool b => simp [hu] at h
  | num n => simp [hu] at h
  | str v =>
    rw [hu] at h
    injection h with h
    exact ⟨v, rfl, h.symm⟩

theorem newURL_pathname_clean (platform : Platform) (hp : pathnameClean platform) (u : String)
    (t : URLRecord) (h : newURL platform u = some t) :
    '?' ∉ t.pathname.data ∧ '#' ∉ t.pathname.data := by
  rcases newURL_cases platform u t h with h1 | h1
  · exact ⟨(plainURL_some u t h1).2.2.1, (plainURL_some u t h1).2.2.2⟩
  · exact hp u t h1

theorem samplePlatform_pathnameClean : pathnameClean samplePlatform := by
  intro u t h
  unfold samplePlatform at h
  split at h
  · injection h with h
    subst h
    decide
  · split at h
    · injection h with h
      subst h
      decide
    · split at h
      · injection h with h
        subst h
        decide
      · exact absurd h (by simp)

theorem takeWhile_append_of_all (p : Char → Bool) (a b : List Char)
    (ha : ∀ x ∈ a, p x = true) (hb : b = [] ∨ ∃ y ys, b = y :: ys ∧ p y = false) :
    (a ++ b).takeWhile p = a ∧ (a ++ b).dropWhile p = b := by
  induction a with
  | nil =>
    rcases hb with hb | ⟨y, ys, hb, hy⟩
    · subst hb; simp
    · subst hb; simp [List.takeWhile_cons, List.dropWhile_cons, hy]
  | cons c cs ih =>
    have hc : p c = true := ha c (by simp)
    have hcs : ∀ x ∈ cs, p x = true := fun x hx => ha x (by simp [hx])
    obtain ⟨i1, i2⟩ := ih hcs
    simp [List.takeWhile_cons, List.dropWhile_cons, hc, i1, i2]

theorem digitsValue_dropWhile_zero (ds : List Char) :
    digitsValue (ds.dropWhile (fun c => c = '0')) = digitsValue ds := by
  unfold digitsValue
  induction ds with
  | nil => rfl
  | cons c cs ih =>
    by_cases hc : c = '0'
    · subst hc
      simp only [List.dropWhile_cons, decide_True, if_true, List.foldl_cons]
      rw [ih]
      rfl
    · simp [List.dropWhile_cons, hc]

theorem portNumber_portField (isHttps : Bool) (ds : List Char) (port : String)
    (h : portField isHttps ds = some port) :
    portNumber (jsOr (.str port) (if isHttps then .num 443 else .num 80)) =
      (if ds.isEmpty then (if isHttps then 443 else 80) else digitsValue ds) := by
  unfold portField at h
  by_cases he : ds.isEmpty = true
  · rw [if_pos he] at h
    injection h with h
    subst h
    rw [if_pos he]
    cases isHttps <;> rfl
  · rw [if_neg he] at h
    rw [if_neg he]
    simp only at h
    by_cases hbig : digitsValue ds > 65535
    · rw [if_pos hbig] at h
      exact absurd h (by simp)
    · rw [if_neg hbig] at h
      by_cases hd : digitsValue ds = (if isHttps then 443 else 80)
      · rw [if_pos hd] at h
        injection h with h
        subst h
        rw [hd]
        cases isHttps <;> rfl
      · rw [if_neg hd] at h
        injection h with h
        subst h
        by_cases hs : (ds.dropWhile (fun c => c = '0')).isEmpty = true
        · have hv : digitsValue ds = 0 := by
            rw [← digitsValue_dropWhile_zero, List.isEmpty_iff.mp hs]
            rfl
          simp only [hs, if_true]
          rw [hv]
          rfl
        · have hne : (⟨ds.dropWhile (fun c => c = '0')⟩ : String) ≠ "" := by
            intro e
            apply hs
            have := congrArg String.data e
            simp only at this
            rw [this]
            rfl
          simp only [hs]
          simp only [jsOr, JSVal.truthy, bne_iff_ne, ne_eq, hne, not_false_eq_true,
            decide_True, if_true, portNumber, Bool.false_eq_true, if_false]
          exact digitsValue_dropWhile_zero ds

theorem isDigit_not_mark (c : Char) (h : c.isDigit = true) :
    (!(c = '/' || c = '?' || c = '#')) = true ∧ c ≠ ':' := by
  refine ⟨?_, ?_⟩
  · by_cases h1 : c = '/'
    · subst h1; exact absurd h (by decide)
    · by_cases h2 : c = '?'
      · subst h2; exact absurd h (by decide)
      · by_cases h3 : c = '#'
        · subst h3; exact absurd h (by decide)
        · simp [h1, h2, h3]
  · intro e
    subst e
    exact absurd h (by decide)

theorem hostChar_not_mark (c : Char)
    (h : (!(c = ':' || c = '/' || c = '?' || c = '#')) = true) :
    (!(c = '/' || c = '?' || c = '#')) = true ∧ (c != ':') = true := by
  by_cases h0 : c = ':'
  · subst h0; exact absurd h (by decide)
  · by_cases h1 : c = '/'
    · subst h1; exact absurd h (by decide)
    · by_cases h2 : c = '?'
      · subst h2; exact absurd h (by decide)
      · by_cases h3 : c = '#'
        · subst h3; exact absurd h (by decide)
        · simp [h0, h1, h2, h3]

theorem URLText.data_text (x : URLText) :
    x.text.data = (if x.https then "https://" else "http://").data ++
      ((x.host.data ++ (match x.port with
        | none => []
        | some d => ':' :: d.data)) ++ (x.path.data ++ x.rest.data)) := by
  unfold URLText.text
  cases x.port with
  | none => simp [String.data_append]
  | some d =>
    simp only [String.data_append, List.append_assoc]
    rfl

theorem plainAfterScheme_text (x : URLText) (hx : x.wellCut = true) (isHttps : Bool)
    (t : URLRecord)
    (h : plainAfterScheme isHttps ((x.host.data ++ (match x.port with
        | none => []
        | some d => ':' :: d.data)) ++ (x.path.data ++ x.rest.data)) = some t) :
    t.hostname = x.host ∧
    portField isHttps (match x.port with
        | none => []
        | some d => d.data) = some t.port ∧
    t.pathname = (if x.path.data.isEmpty then "/" else x.path) := by
  unfold URLText.wellCut at hx
  simp only [Bool.and_eq_true, Bool.or_eq_true, List.all_eq_true] at hx
  obtain ⟨⟨⟨⟨hhost, hport⟩, hpath0⟩, hpath⟩, hrest⟩ := hx
  obtain ⟨-, b, c, d⟩ := plainAfterScheme_some _ _ _ h
  -- the authority ends where the path (or the rest) begins
  have hauth : ∀ ch ∈ x.host.data ++ (match x.port with
        | none => []
        | some d => ':' :: d.data), (!(ch = '/' || ch = '?' || ch = '#')) = true := by
    intro ch hch
    rw [List.mem_append] at hch
    rcases hch with hch | hch
    · exact (hostChar_not_mark ch (hhost ch hch)).1
    · cases hp : x.port with
      | none => rw [hp] at hch; simp at hch
      | some dd =>
        rw [hp] at hch hport
        simp only [List.all_eq_true] at hport
        rcases List.mem_cons.mp hch with e | e
        · subst e; decide
        · exact (isDigit_not_mark ch (hport ch e)).1
  have htail : (x.path.data ++ x.rest.data) = [] ∨ ∃ y ys, (x.path.data ++ x.rest.data) = y :: ys ∧
      (!(y = '/' || y = '?' || y = '#')) = false := by
    cases hpd : x.path.data with
    | nil =>
      cases hrd : x.rest.data with
      | nil => left; rfl
      | cons y ys =>
        right
        refine ⟨y, ys, rfl, ?_⟩
        rw [hrd] at hrest
        simp only [List.isEmpty_cons, Bool.false_eq_true, List.head?_cons, Option.some.injEq,
          decide_eq_true_eq, false_or] at hrest
        rcases hrest with e | e
        · subst e; decide
        · subst e; decide
    | cons y ys =>
      right
      refine ⟨y, ys ++ x.rest.data, rfl, ?_⟩
      rw [hpd] at hpath0
      simp only [List.isEmpty_cons, Bool.false_eq_true, List.head?_cons, Option.some.injEq,
        decide_eq_true_eq, false_or] at hpath0
      subst hpath0
      decide
  obtain ⟨ta, tb⟩ := takeWhile_append_of_all _ _ _ hauth htail
  rw [ta] at b c
  rw [tb] at d
  -- the host ends at the colon
  have hh : ∀ ch ∈ x.host.data, (ch != ':') = true := by
    intro ch hch
    exact (hostChar_not_mark ch (hhost ch hch)).2
  have hp : (match x.port with
        | none => ([] : List Char)
        | some d => ':' :: d.data) = [] ∨ ∃ y ys, (match x.port with
        | none => ([] : List Char)
        | some d => ':' :: d.data) = y :: ys ∧ (y != ':') = false := by
    cases x.port with
    | none => left; rfl
    | some dd => right; exact ⟨':', dd.data, rfl, by decide⟩
  obtain ⟨ha, hb⟩ := takeWhile_append_of_all _ _ _ hh hp
  rw [ha] at b
  rw [hb] at c
  -- the path ends where the rest begins
  have hpa : ∀ ch ∈ x.path.data, (!(ch = '?' || ch = '#')) = true := hpath
  have hr : x.rest.data = [] ∨ ∃ y ys, x.rest.data = y :: ys ∧ (!(y = '?' || y = '#')) = false := by
    cases hrd : x.rest.data with
    | nil => left; rfl
    | cons y ys =>
      right
      refine ⟨y, ys, rfl, ?_⟩
      rw [hrd] at hrest
      simp only [List.isEmpty_cons, Bool.false_eq_true, List.head?_cons, Option.some.injEq,
        decide_eq_true_eq, false_or] at hrest
      rcases hrest with e | e
      · subst e; decide
      · subst e; decide
  obtain ⟨hc, -⟩ := takeWhile_append_of_all _ _ _ hpa hr
  rw [hc] at d
  refine ⟨b, ?_, d⟩
  cases hpp : x.port with
  | none => rw [hpp] at c; exact c
  | some dd => rw [hpp] at c; exact c

theorem plainURL_text (x : URLText) (hx : x.wellCut = true) (t : URLRecord)
    (h : plainURL x.text = some t) :
    t.protocol = (if x.https then "https:" else "http:") ∧
    t.hostname = x.host ∧
    portField x.https (match x.port with
        | none => []
        | some d => d.data) = some t.port ∧
    t.pathname = (if x.path.data.isEmpty then "/" else x.path) := by
  unfold plainURL at h
  rw [URLText.data_text] at h
  cases hs : x.https with
  | false =>
    rw [hs] at h
    have h1 : "http://".data.isPrefixOf ((if false = true then "https://" else "http://").data ++
        ((x.host.data ++ (match x.port with
        | none => []
        | some d => ':' :: d.data)) ++ (x.path.data ++ x.rest.data))) = true := by
      apply List.isPrefixOf_iff_prefix.mpr
      exact ⟨_, rfl⟩
    rw [if_pos h1] at h
    replace h : plainAfterScheme false ((x.host.data ++ (match x.port with
        | none => []
        | some d => ':' :: d.data)) ++ (x.path.data ++ x.rest.data)) = some t := h
    obtain ⟨a, b, c⟩ := plainAfterScheme_text x hx false t h
    obtain ⟨p, -⟩ := plainAfterScheme_some _ _ _ h
    exact ⟨p, a, b, c⟩
  | true =>
    rw [hs] at h
    have h1 : "http://".data.isPrefixOf ((if true = true then "https://" else "http://").data ++
        ((x.host.data ++ (match x.port with
        | none => []
        | some d => ':' :: d.data)) ++ (x.path.data ++ x.rest.data))) = false := by
      show List.isPrefixOf ['h', 't', 't', 'p', ':', '/', '/']
        ('h' :: 't' :: 't' :: 'p' :: 's' :: ':' :: '/' :: '/' :: _) = false
      simp [List.isPrefixOf]
    have h1b : "https://".data.isPrefixOf ((if true = true then "https://" else "http://").data ++
        ((x.host.data ++ (match x.port with
        | none => []
        | some d => ':' :: d.data)) ++ (x.path.data ++ x.rest.data))) = true := by
      apply List.isPrefixOf_iff_prefix.mpr
      exact ⟨_, rfl⟩
    rw [h1, h1b] at h
    simp only [Bool.false_eq_true, if_false, if_true] at h
    replace h : plainAfterScheme true ((x.host.data ++ (match x.port with
        | none => []
        | some d => ':' :: d.data)) ++ (x.path.data ++ x.rest.data)) = some t := h
    obtain ⟨a, b, c⟩ := plainAfterScheme_text x hx true t h
    obtain ⟨p, -⟩ := plainAfterScheme_some _ _ _ h
    exact ⟨p, a, b, c⟩

/-! ## C7: host, port and path of the request -/

theorem mkOptions_target (t : URLRecord) (body sig : String) :
    (mkOptions t body sig).hostname = t.hostname ∧
    (mkOptions t body sig).port =
      jsOr (.str t.port) (if (t.protocol == "https:") = true then .num 443 else .num 80) ∧
    (mkOptions t body sig).path = (if (t.pathname != "") = true then t.pathname else "/") :=
  ⟨rfl, rfl, rfl⟩

theorem mkOptions_port (t : URLRecord) (body sig : String) :
    (mkOptions t body sig).port =
      (if t.port ≠ "" then .str t.port
       else if t.protocol = "https:" then .num 443 else .num 80) := by
  rw [(mkOptions_target t body sig).2.1]
  by_cases hp : t.port = ""
  · by_cases hs : t.protocol = "https:"
    · simp [jsOr, JSVal.truthy, hp, hs]
    · simp [jsOr, JSVal.truthy, hp, hs]
  · simp [jsOr, JSVal.truthy, hp]

theorem mkOptions_port_default (t : URLRecord) (body sig : String) (d : Nat)
    (h : defaultPort t.protocol = some d) :
    (mkOptions t body sig).port = (if t.port = "" then .num d else .str t.port) := by
  rw [mkOptions_port]
  unfold defaultPort at h
  by_cases hp : t.port = ""
  · rw [if_neg (not_not.mpr hp), if_pos hp]
    by_cases h1 : t.protocol = "http:"
    · rw [if_pos h1] at h
      injection h with h
      have h2 : ¬ t.protocol = "https:" := by rw [h1]; decide
      rw [if_neg h2, h]
    · rw [if_neg h1] at h
      by_cases h2 : t.protocol = "https:"
      · rw [if_pos h2] at h
        injection h with h
        rw [if_pos h2, h]
      · rw [if_neg h2] at h
        exact absurd h (by simp)
  · rw [if_pos hp, if_neg hp]

theorem mkOptions_path_eq (t : URLRecord) (body sig : String) :
    (mkOptions t body sig).path = (if t.pathname = "" then "/" else t.pathname) := by
  rw [(mkOptions_target t body sig).2.2]
  by_cases hp : t.pathname = ""
  · simp [hp]
  · simp [hp]

/-- C7: whatever the platform's URL parser, for every resolved URL `u` that it parses into a
URL object `target` (and a secret that is a string), the script builds a request whose options
carry `target`'s hostname, its port when that is not empty and otherwise 443 for `https:` and
80 for `http:`, and its pathname, or `/` when the pathname is empty; every request the script
builds arises this way.  For a plain URL text cut into scheme, host, port digits, path and
rest, the hostname is the host, the port is the number written after the colon, or the
scheme's 443 or 80 when none is written, and the path is the path, or `/`.  In particular
`--url=http://example.test:9999/hook` gives host `example.test`, port `9999` and path `/hook`,
in every environment and at every clock value. -/
theorem C7_request_target :
    (∀ (platform : Platform) (argv : List String) (env : Env) (c p s u : String)
      (target : URLRecord),
      secret argv env = .str s → url argv env = .ok u → newURL platform u = some target →
      ∃ sent : Sent,
        main platform argv env c p = .ok sent ∧
        sent.https = (target.protocol == "https:") ∧
        sent.options.hostname = target.hostname ∧
        sent.options.port =
          (if target.port ≠ "" then .str target.port
           else if target.protocol = "https:" then .num 443 else .num 80) ∧
        (∀ d : Nat, defaultPort target.protocol = some d →
          sent.options.port = (if target.port = "" then .num d else .str target.port)) ∧
        sent.options.path = (if target.pathname = "" then "/" else target.pathname)) ∧
    (∀ (platform : Platform) (argv : List String) (env : Env) (c p : String) (sent : Sent),
      main platform argv env c p = .ok sent →
      ∃ (s u : String) (target : URLRecord),
        secret argv env = .str s ∧ url argv env = .ok u ∧ newURL platform u = some target) ∧
    (∀ (platform : Platform) (argv : List String) (env : Env) (c p s : String) (x : URLText)
      (target : URLRecord),
      x.wellCut = true → plainURL x.text = some target →
      secret argv env = .str s → url argv env = .ok x.text →
      ∃ sent : Sent,
        main platform argv env c p = .ok sent ∧
        sent.https = x.https ∧ sent.options.hostname = x.host ∧
        portNumber sent.options.port = x.portAsked ∧
        sent.options.path = (if x.path = "" then "/" else x.path)) ∧
    (∀ (platform : Platform) (env : Env) (c p : String),
      ∃ sent : Sent,
        main platform ["node", "send-trigger.js", "--url=http://example.test:9999/hook"]
          env c p = .ok sent ∧
        sent.options.hostname = "example.test" ∧ sent.options.port = .str "9999" ∧
        sent.options.path = "/hook") := by
  have general : ∀ (platform : Platform) (argv : List String) (env : Env) (c p s u : String)
      (target : URLRecord),
      secret argv env = .str s → url argv env = .ok u → newURL platform u = some target →
      main platform argv env c p = .ok
        { https := target.protocol == "https:"
          options := mkOptions target (stringify (payload c p))
            ("sha1=" ++ hexEncode (hmacSha1 (utf8Bytes s) (utf8Bytes (stringify (payload c p)))))
          stdout := ["Sending payload to " ++ u,
            "X-Hub-Signature: " ++ ("sha1=" ++
              hexEncode (hmacSha1 (utf8Bytes s) (utf8Bytes (stringify (payload c p)))))]
          body := stringify (payload c p) } := by
    intro platform argv env c p s u target hs hu ht
    obtain ⟨v, hv, e⟩ := url_ok_inv argv env u hu
    subst e
    exact main_ok platform argv env c p s v target hs hv ht
  refine ⟨?_, ?_, ?_, ?_⟩
  · intro platform argv env c p s u target hs hu ht
    exact ⟨_, general platform argv env c p s u target hs hu ht, rfl,
      (mkOptions_target _ _ _).1, mkOptions_port _ _ _,
      fun d hd => mkOptions_port_default _ _ _ d hd, mkOptions_path_eq _ _ _⟩
  · intro platform argv env c p sent h
    obtain ⟨s, u, target, hs, -, hurl, ht, -⟩ := main_ok_inv platform argv env c p sent h
    exact ⟨s, _, target, hs, hurl, ht⟩
  · intro platform argv env c p s x target hx hplain hs hu
    obtain ⟨hproto, hhost, hport, hpath⟩ := plainURL_text x hx target hplain
    have hhttps : (target.protocol == "https:") = x.https := by
      rw [hproto]
      cases x.https <;> decide
    refine ⟨_, general platform argv env c p s _ target hs hu
      (newURL_of_plain platform _ _ hplain), hhttps, ?_, ?_, ?_⟩
    · show (mkOptions _ _ _).hostname = _
      rw [(mkOptions_target _ _ _).1, hhost]
    · show portNumber (mkOptions _ _ _).port = _
      rw [(mkOptions_target _ _ _).2.1, hhttps]
      have := portNumber_portField x.https _ target.port hport
      simp only [Bool.false_eq_true] at this ⊢
      rw [this]
      unfold URLText.portAsked
      cases x.port with
      | none => rfl
      | some d => rfl
    · show (mkOptions _ _ _).path = _
      rw [(mkOptions_target _ _ _).2.2, hpath]
      by_cases he : x.path = ""
      · rw [he]
        decide
      · have hne : x.path.data.isEmpty = false := by
          cases hd : x.path.data with
          | nil => exact absurd (String.ext hd) he
          | cons a l => rfl
        simp [hne, he]
  · intro platform env c p
    obtain ⟨s, hs⟩ := secret_without_flag
      ["node", "send-trigger.js", "--url=http://example.test:9999/hook"] env (by decide)
    have hu : urlChosen ["node", "send-trigger.js", "--url=http://example.test:9999/hook"] env =
        .str "http://example.test:9999/hook" :=
      flag_valued "url" "http://example.test:9999/hook" url_key_ok.1 url_key_ok.2 _
        (by decide) (by decide) (by decide) _ _
    exact ⟨_, main_ok platform _ env c p s _ ⟨"http:", "example.test", "9999", "/hook", "", ""⟩
      hs hu (newURL_of_plain _ _ _ (by decide)), rfl,
      (mkOptions_target _ _ _).2.1.trans (by decide),
      (mkOptions_target _ _ _).2.2.trans (by decide)⟩

/-- C7 at concrete inputs.  An IPv6 https URL, parsed by the platform, is sent to host `[::1]`,
port `8443`, path `/hook`; a URL with an upper-case host and a dot segment is sent to what the
platform made of it, `example.test`, port 80, `/b`; the port written as `0080` in the plain URL
`http://example.test:0080/hook?a=b#c` is sent as 80. -/
theorem C7_request_target_witness :
    (∃ sent : Sent,
      main samplePlatform ["node", "send-trigger.js"]
        (fun n => if n = "EL_URL" then some "https://[::1]:8443/hook" else none)
        "2026-11-04T21:18:00.000Z" "2026-11-04T21:18:00.000Z" = .ok sent ∧
      sent.https = true ∧ sent.options.hostname = "[::1]" ∧
      sent.options.port = .str "8443" ∧ sent.options.path = "/hook") ∧
    (∃ sent : Sent,
      main samplePlatform ["node", "send-trigger.js"]
        (fun n => if n = "EL_URL" then some "http://Example.test/a/../b?x=%20y" else none)
        "2026-11-04T21:18:00.000Z" "2026-11-04T21:18:00.000Z" = .ok sent ∧
      sent.https = false ∧ sent.options.hostname = "example.test" ∧
      sent.options.port = .num 80 ∧ sent.options.path = "/b") ∧
    (∃ sent : Sent,
      main samplePlatform ["node", "send-trigger.js"]
        (fun n => if n = "EL_URL" then some "http://example.test:0080/hook?a=b#c" else none)
        "2026-11-04T21:18:00.000Z" "2026-11-04T21:18:00.000Z" = .ok sent ∧
      sent.https = false ∧ sent.options.hostname = "example.test" ∧
      portNumber sent.options.port = 80 ∧ sent.options.path = "/hook") := by
  refine ⟨?_, ?_, ?_⟩
  · obtain ⟨sent, h, h1, h2, h3, -, h5⟩ := C7_request_target.1 samplePlatform
      ["node", "send-trigger.js"]
      (fun n => if n = "EL_URL" then some "https://[::1]:8443/hook" else none)
      "2026-11-04T21:18:00.000Z" "2026-11-04T21:18:00.000Z" "mysecret"
      "https://[::1]:8443/hook" ⟨"https:", "[::1]", "8443", "/hook", "", ""⟩
      (by decide) rfl (by decide)
    exact ⟨sent, h, h1, h2, h3, h5⟩
  · obtain ⟨sent, h, h1, h2, h3, -, h5⟩ := C7_request_target.1 samplePlatform
      ["node", "send-trigger.js"]
      (fun n => if n = "EL_URL" then some "http://Example.test/a/../b?x=%20y" else none)
      "2026-11-04T21:18:00.000Z" "2026-11-04T21:18:00.000Z" "mysecret"
      "http://Example.test/a/../b?x=%20y" ⟨"http:", "example.test", "", "/b", "?x=%20y", ""⟩
      (by decide) rfl (by decide)
    exact ⟨sent, h, h1, h2, h3, h5⟩
  · exact C7_request_target.2.2.1 samplePlatform ["node", "send-trigger.js"]
      (fun n => if n = "EL_URL" then some "http://example.test:0080/hook?a=b#c" else none)
      "2026-11-04T21:18:00.000Z" "2026-11-04T21:18:00.000Z" "mysecret"
      ⟨false, "example.test", some "0080", "/hook", "?a=b#c"⟩
      ⟨"http:", "example.test", "", "/hook", "?a=b", "#c"⟩
      (by decide) (by decide) (by decide) rfl

theorem plainAfterScheme_query_indep (isHttps : Bool) (r q1 q2 : List Char) (t1 t2 : URLRecord)
    (h1 : plainAfterScheme isHttps (r ++ '?' :: q1) = some t1)
    (h2 : plainAfterScheme isHttps (r ++ '?' :: q2) = some t2) :
    t1.protocol = t2.protocol ∧ t1.hostname = t2.hostname ∧ t1.port = t2.port ∧
      t1.pathname = t2.pathname := by
  obtain ⟨a1, b1, c1, d1⟩ := plainAfterScheme_some _ _ _ h1
  obtain ⟨a2, b2, c2, d2⟩ := plainAfterScheme_some _ _ _ h2
  have hstop : (fun c : Char => !(c = '/' || c = '?' || c = '#')) '?' = false := by decide
  have hstop2 : (fun c : Char => !(c = '?' || c = '#')) '?' = false := by decide
  rw [takeWhile_append_stop _ r _ '?' hstop] at b1 c1 b2 c2
  rw [dropWhile_append_stop _ r _ '?' hstop, takeWhile_append_stop _ _ _ '?' hstop2] at d1 d2
  refine ⟨by rw [a1, a2], by rw [b1, b2], ?_, by rw [d1, d2]⟩
  rw [c1] at c2
  injection c2

theorem drop_of_isPrefixOf (pre b q : List Char) (h : pre.isPrefixOf b = true) :
    (b ++ q).drop pre.length = b.drop pre.length ++ q := by
  obtain ⟨t, ht⟩ := List.isPrefixOf_iff_prefix.mp h
  rw [← ht]
  simp

theorem plainURL_query_indep (base q1 q2 : String) (t1 t2 : URLRecord)
    (h1 : plainURL (base ++ "?" ++ q1) = some t1)
    (h2 : plainURL (base ++ "?" ++ q2) = some t2) :
    t1.protocol = t2.protocol ∧ t1.hostname = t2.hostname ∧ t1.port = t2.port ∧
      t1.pathname = t2.pathname := by
  have hd : ∀ q : String, (base ++ "?" ++ q).data = base.data ++ '?' :: q.data := by
    intro q
    rw [String.data_append, String.data_append]
    simp
  unfold plainURL at h1 h2
  rw [hd] at h1 h2
  rw [isPrefixOf_append_stop _ _ _ _ (by decide), isPrefixOf_append_stop _ _ _ _ (by decide)]
    at h1 h2
  by_cases hp : "http://".data.isPrefixOf base.data = true
  · rw [if_pos hp] at h1 h2
    have e : ∀ q : List Char, (base.data ++ '?' :: q).drop 7 = base.data.drop 7 ++ '?' :: q :=
      fun q => drop_of_isPrefixOf "http://".data base.data _ hp
    rw [e] at h1 h2
    exact plainAfterScheme_query_indep _ _ _ _ _ _ h1 h2
  · rw [if_neg hp] at h1 h2
    by_cases hp2 : "https://".data.isPrefixOf base.data = true
    · rw [if_pos hp2] at h1 h2
      have e : ∀ q : List Char, (base.data ++ '?' :: q).drop 8 = base.data.drop 8 ++ '?' :: q :=
        fun q => drop_of_isPrefixOf "https://".data base.data _ hp2
      rw [e] at h1 h2
      exact plainAfterScheme_query_indep _ _ _ _ _ _ h1 h2
    · rw [if_neg hp2] at h1
      exact absurd h1 (by simp)

/-! ## C8: the trailing slash -/

/-- C8: when the resolution chooses the string `u`, the constant `url` is `u` without its
last character if `u` ends with `/` and is `u` otherwise; that string is the one logged
and the one handed to the URL parser, whatever the platform's parser.  Only one slash goes: `x//` becomes `x/`.  In particular
`--url=http://example.test/hook/` gives the request path `/hook`. -/
theorem C8_trailing_slash :
    (∀ (argv : List String) (env : Env) (u : String), urlChosen argv env = .str u →
      url argv env = .ok (if endsWith u "/" then ⟨u.data.dropLast⟩ else u)) ∧
    (∀ (platform : Platform) (argv : List String) (env : Env) (c p : String) (sent : Sent),
      main platform argv env c p = .ok sent →
      ∃ (u : String) (target : URLRecord) (body sig : String),
        urlChosen argv env = .str u ∧
        sent.stdout.head? =
          some ("Sending payload to " ++ (if endsWith u "/" then ⟨u.data.dropLast⟩ else u)) ∧
        newURL platform (if endsWith u "/" then ⟨u.data.dropLast⟩ else u) = some target ∧
        sent.options = mkOptions target body sig) ∧
    (∀ env : Env, url ["node", "send-trigger.js", "--url=x//"] env = .ok "x/") ∧
    (∀ (platform : Platform) (env : Env) (c p : String),
      ∃ sent : Sent,
        main platform ["node", "send-trigger.js", "--url=http://example.test/hook/"] env c p =
          .ok sent ∧
        sent.stdout.head? = some "Sending payload to http://example.test/hook" ∧
        sent.options.path = "/hook") := by
  have hurl : ∀ (argv : List String) (env : Env) (u : String), urlChosen argv env = .str u →
      url argv env = .ok (if endsWith u "/" then ⟨u.data.dropLast⟩ else u) := by
    intro argv env u h
    unfold url
    simp only [h]
    rw [replaceSlashAtEnd_eq]
  refine ⟨hurl, ?_, ?_, ?_⟩
  · intro platform argv env c p sent h
    obtain ⟨s, u, target, -, hu, -, ht, hsent⟩ := main_ok_inv platform argv env c p sent h
    rw [replaceSlashAtEnd_eq] at ht hsent
    refine ⟨u, target, stringify (payload c p),
      "sha1=" ++ hexEncode (hmacSha1 (utf8Bytes s) (utf8Bytes (stringify (payload c p)))),
      hu, ?_, ht, ?_⟩
    · rw [hsent]
      rfl
    · rw [hsent]
  · intro env
    have hu : urlChosen ["node", "send-trigger.js", "--url=x//"] env = .str "x//" :=
      flag_valued "url" "x//" url_key_ok.1 url_key_ok.2 _ (by decide) (by decide) (by decide) _ _
    rw [hurl _ _ _ hu]
    exact congrArg Except.ok (by decide)
  · intro platform env c p
    obtain ⟨s, hs⟩ := secret_without_flag
      ["node", "send-trigger.js", "--url=http://example.test/hook/"] env (by decide)
    have hu : urlChosen ["node", "send-trigger.js", "--url=http://example.test/hook/"] env =
        .str "http://example.test/hook/" :=
      flag_valued "url" "http://example.test/hook/" url_key_ok.1 url_key_ok.2 _
        (by decide) (by decide) (by decide) _ _
    exact ⟨_, main_ok platform _ env c p s _ ⟨"http:", "example.test", "", "/hook", "", ""⟩ hs hu
      (newURL_of_plain _ _ _ (by decide)),
      (by decide : some ("Sending payload to " ++
          (⟨replaceSlashAtEnd "http://example.test/hook/".data⟩ : String)) =
        some "Sending payload to http://example.test/hook"),
      (mkOptions_target _ _ _).2.2.trans (by decide)⟩

/-- C8 at concrete inputs: a URL from EL_URL with a trailing slash loses it, one without
keeps its text. -/
theorem C8_trailing_slash_witness :
    url ["node", "send-trigger.js"]
      (fun n => if n = "EL_URL" then some "http://example.test/hook/" else none) =
        .ok "http://example.test/hook" ∧
    url ["node", "send-trigger.js"] (fun _ => none) = .ok "http://127.0.0.1:8080" :=
  ⟨C8_trailing_slash.1 _ _ "http://example.test/hook/" (by decide),
   C8_trailing_slash.1 _ _ "http://127.0.0.1:8080" (by decide)⟩

/-! ## C10: the query string is not part of the request path -/

/-- C10: whatever the platform's URL parser, the path of every request the script builds is
the pathname of the URL object (or `/`), whatever its query and fragment: two runs whose URL
objects have the same pathname send to the same path, however their queries differ.  As the
platform's pathnames hold neither `?` nor `#`, neither does the request path.  For plain URL
texts `base?q1` and `base?q2` the path, host and port are the same.  In particular the URLs
`http://host/hook?token=abc` and `http://example.test/hook?redirect=http%3A%2F%2Fx` give the
path `/hook`. -/
theorem C10_query_not_in_path :
    (∀ (platform : Platform) (argv : List String) (env : Env) (c p : String) (sent : Sent),
      main platform argv env c p = .ok sent →
      ∃ (u : String) (target : URLRecord),
        url argv env = .ok u ∧ newURL platform u = some target ∧
        sent.options.path = (if target.pathname = "" then "/" else target.pathname)) ∧
    (∀ (platform : Platform) (argv1 argv2 : List String) (env1 env2 : Env)
      (c1 p1 c2 p2 u1 u2 : String) (t1 t2 : URLRecord) (sent1 sent2 : Sent),
      url argv1 env1 = .ok u1 → url argv2 env2 = .ok u2 →
      newURL platform u1 = some t1 → newURL platform u2 = some t2 →
      t1.pathname = t2.pathname →
      main platform argv1 env1 c1 p1 = .ok sent1 → main platform argv2 env2 c2 p2 = .ok sent2 →
      sent1.options.path = sent2.options.path) ∧
    (∀ platform : Platform, pathnameClean platform →
      ∀ (argv : List String) (env : Env) (c p : String) (sent : Sent),
      main platform argv env c p = .ok sent →
      '?' ∉ sent.options.path.data ∧ '#' ∉ sent.options.path.data) ∧
    (∀ (platform : Platform) (argv1 argv2 : List String) (env1 env2 : Env)
      (c1 p1 c2 p2 base q1 q2 : String) (t1 t2 : URLRecord) (sent1 sent2 : Sent),
      url argv1 env1 = .ok (base ++ "?" ++ q1) → url argv2 env2 = .ok (base ++ "?" ++ q2) →
      plainURL (base ++ "?" ++ q1) = some t1 → plainURL (base ++ "?" ++ q2) = some t2 →
      main platform argv1 env1 c1 p1 = .ok sent1 → main platform argv2 env2 c2 p2 = .ok sent2 →
      sent1.options.path = sent2.options.path ∧
      sent1.options.hostname = sent2.options.hostname ∧
      sent1.options.port = sent2.options.port) ∧
    (∀ (platform : Platform) (c p : String),
      ∃ sent : Sent,
        main platform ["node", "send-trigger.js"]
          (fun n => if n = "EL_URL" then some "http://host/hook?token=abc" else none) c p =
            .ok sent ∧
        sent.options.path = "/hook") ∧
    (∀ (c p : String),
      ∃ sent : Sent,
        main samplePlatform ["node", "send-trigger.js"]
          (fun n => if n = "EL_URL" then some "http://example.test/hook?redirect=http%3A%2F%2Fx"
            else none) c p = .ok sent ∧
        sent.options.path = "/hook") := by
  have hinv : ∀ (platform : Platform) (argv : List String) (env : Env) (c p : String)
      (sent : Sent), main platform argv env c p = .ok sent →
      ∃ (u : String) (target : URLRecord) (body sig : String),
        url argv env = .ok u ∧ newURL platform u = some target ∧
        sent.options = mkOptions target body sig := by
    intro platform argv env c p sent h
    obtain ⟨s, u, target, -, -, hurl, ht, hsent⟩ := main_ok_inv platform argv env c p sent h
    exact ⟨_, target, _, _, hurl, ht, by rw [hsent]⟩
  have hsame : ∀ (platform : Platform) (argv : List String) (env : Env) (c p u : String)
      (t : URLRecord) (sent : Sent), url argv env = .ok u → newURL platform u = some t →
      main platform argv env c p = .ok sent →
      ∃ body sig : String, sent.options = mkOptions t body sig := by
    intro platform argv env c p u t sent hu ht h
    obtain ⟨u', t', body, sig, hu', ht', ho⟩ := hinv platform argv env c p sent h
    rw [hu] at hu'
    injection hu' with e
    subst e
    rw [ht] at ht'
    injection ht' with e
    subst e
    exact ⟨body, sig, ho⟩
  refine ⟨?_, ?_, ?_, ?_, ?_, ?_⟩
  · intro platform argv env c p sent h
    obtain ⟨u, target, body, sig, hurl, ht, ho⟩ := hinv platform argv env c p sent h
    exact ⟨u, target, hurl, ht, by rw [ho]; exact mkOptions_path_eq _ _ _⟩
  · intro platform argv1 argv2 env1 env2 c1 p1 c2 p2 u1 u2 t1 t2 sent1 sent2 hu1 hu2 ht1 ht2
      hpath h1 h2
    obtain ⟨b1, s1, ho1⟩ := hsame _ _ _ _ _ _ _ _ hu1 ht1 h1
    obtain ⟨b2, s2, ho2⟩ := hsame _ _ _ _ _ _ _ _ hu2 ht2 h2
    rw [ho1, ho2, mkOptions_path_eq, mkOptions_path_eq, hpath]
  · intro platform hp argv env c p sent h
    obtain ⟨u, target, body, sig, hurl, ht, ho⟩ := hinv platform argv env c p sent h
    obtain ⟨hq, hh⟩ := newURL_pathname_clean platform hp u target ht
    have hpath : sent.options.path = (if target.pathname = "" then "/" else target.pathname) := by
      rw [ho]
      exact mkOptions_path_eq _ _ _
    rw [hpath]
    by_cases he : target.pathname = ""
    · rw [if_pos he]
      decide
    · rw [if_neg he]
      exact ⟨hq, hh⟩
  · intro platform argv1 argv2 env1 env2 c1 p1 c2 p2 base q1 q2 t1 t2 sent1 sent2 hu1 hu2
      ht1 ht2 h1 h2
    obtain ⟨b1, s1, ho1⟩ := hsame _ _ _ _ _ _ _ _ hu1 (newURL_of_plain platform _ _ ht1) h1
    obtain ⟨b2, s2, ho2⟩ := hsame _ _ _ _ _ _ _ _ hu2 (newURL_of_plain platform _ _ ht2) h2
    obtain ⟨hp, hh, hport, hpath⟩ := plainURL_query_indep base q1 q2 t1 t2 ht1 ht2
    rw [ho1, ho2]
    obtain ⟨a1, a2, a3⟩ := mkOptions_target t1 b1 s1
    obtain ⟨a4, a5, a6⟩ := mkOptions_target t2 b2 s2
    rw [a1, a2, a3, a4, a5, a6, hp, hh, hport, hpath]
    exact ⟨rfl, rfl, rfl⟩
  · intro platform c p
    exact ⟨_, main_ok platform _ _ c p "mysecret" "http://host/hook?token=abc"
      ⟨"http:", "host", "", "/hook", "?token=abc", ""⟩ (by decide) (by decide)
      (newURL_of_plain _ _ _ (by decide)),
      (mkOptions_target _ _ _).2.2.trans (by decide)⟩
  · intro c p
    exact ⟨_, main_ok samplePlatform _ _ c p "mysecret"
      "http://example.test/hook?redirect=http%3A%2F%2Fx"
      ⟨"http:", "example.test", "", "/hook", "?redirect=http%3A%2F%2Fx", ""⟩
      (by decide) (by decide) (by decide),
      (mkOptions_target _ _ _).2.2.trans (by decide)⟩

/-- C10 at concrete inputs: on the sample platform, which keeps `?` and `#` out of its
pathnames, the request for `http://example.test/hook?redirect=http%3A%2F%2Fx` has a path
without `?`, and it is the path of the request for `http://example.test/hook?x`. -/
theorem C10_query_not_in_path_witness :
    ∃ sent1 sent2 : Sent,
      main samplePlatform ["node", "send-trigger.js"]
        (fun n => if n = "EL_URL" then some "http://example.test/hook?redirect=http%3A%2F%2Fx"
          else none)
        "2026-11-04T21:18:00.000Z" "2026-11-04T21:18:00.000Z" = .ok sent1 ∧
      main samplePlatform ["node", "send-trigger.js", "--url=http://example.test/hook?x"]
        (fun _ => none)
        "2026-11-04T21:18:00.000Z" "2026-11-04T21:18:00.000Z" = .ok sent2 ∧
      sent1.options.path = sent2.options.path ∧
      '?' ∉ sent1.options.path.data ∧ '#' ∉ sent1.options.path.data := by
  have h1 := main_ok samplePlatform ["node", "send-trigger.js"]
    (fun n => if n = "EL_URL" then some "http://example.test/hook?redirect=http%3A%2F%2Fx"
      else none)
    "2026-11-04T21:18:00.000Z" "2026-11-04T21:18:00.000Z" "mysecret"
    "http://example.test/hook?redirect=http%3A%2F%2Fx"
    ⟨"http:", "example.test", "", "/hook", "?redirect=http%3A%2F%2Fx", ""⟩
    (by decide) (by decide) (by decide)
  have h2 := main_ok samplePlatform ["node", "send-trigger.js", "--url=http://example.test/hook?x"]
    (fun _ => none)
    "2026-11-04T21:18:00.000Z" "2026-11-04T21:18:00.000Z" "mysecret" "http://example.test/hook?x"
    ⟨"http:", "example.test", "", "/hook", "?x", ""⟩ (by decide) (by decide) (by decide)
  have e1 : url ["node", "send-trigger.js"]
      (fun n => if n = "EL_URL" then some "http://example.test/hook?redirect=http%3A%2F%2Fx"
        else none) = .ok "http://example.test/hook?redirect=http%3A%2F%2Fx" := rfl
  have e2 : url ["node", "send-trigger.js", "--url=http://example.test/hook?x"]
      (fun _ => none) = .ok "http://example.test/hook?x" := rfl
  exact ⟨_, _, h1, h2,
    C10_query_not_in_path.2.1 samplePlatform _ _ _ _ _ _ _ _ _ _
      ⟨"http:", "example.test", "", "/hook", "?redirect=http%3A%2F%2Fx", ""⟩
      ⟨"http:", "example.test", "", "/hook", "?x", ""⟩ _ _ e1 e2 (by decide) (by decide) rfl
      h1 h2,
    C10_query_not_in_path.2.2.1 samplePlatform samplePlatform_pathnameClean _ _ _ _ _ h1⟩

end SendTrigger
